import Mathlib

/-!
# Decoder buffer and DSD helpers of MPD

A shallow embedding of the sliding-window decode buffer
(`src/decoder/DecoderBuffer.cxx`), of the skip policy and the tag extractor
built on the same stream (`src/decoder/plugins/DsdLib.cxx`), and of the
stream they pull from.

* `size_t` values are natural numbers.  The code asserts
  `consumed <= length` and `length <= size`; for such states (`Valid`, the
  only ones the operations produce) no subtraction of the source goes below
  zero and no addition exceeds `size`, so the arithmetic of the model is that
  of the code and no wrap-around is involved.  The `assert`s themselves are
  preconditions: they appear as hypotheses, not as results (the assertion of
  `decoder_buffer_new` is also modelled as such, in
  `decoder_buffer_new_asserting`).
* The storage `data[size]` is a list of bytes; `memmove` and the write done
  by `decoder_read` are list surgery at the same indices.  A read that
  returns 0 bytes stores nothing.
* `InputStream`, `decoder_read` and `decoder_skip` are declared in headers
  that are not part of the sources at hand: the stream is a state of an
  arbitrary type, its behaviour is a parameter (`StreamAdapter`), and every
  call made on it is recorded in a trace, so that "no call" and "exactly one
  call" are statements about that trace.
* Functions that change the buffer or the stream return the new buffer and
  the new stream next to their C++ result.
* Stream offsets and sizes are natural numbers as well.  The one sum the
  code forms from a caller-supplied `uint64_t`, `GetOffset() + delta` in
  `dsdlib_skip`, is taken modulo `2 ^ 64`; the two subtractions of
  `DsdLib.cxx` are guarded by a comparison and cannot go below zero.
* The tag library (`id3_tag_parse`, `scan_id3_tag`) is a parameter
  (`TagScanner`); what the extractor returns is the list of handler
  invocations.
-/

namespace Mpd

/-- An `unsigned char`. -/
abbrev Byte := Fin 256

/-- The calls the code can make on the stream, with their size argument. -/
inductive StreamCall where
  | read (maxLen : Nat)
  | skip (nbytes : Nat)
  | seek (offset : Nat)
  | readFull (nbytes : Nat)
deriving DecidableEq, Repr

/-- Behaviour of the stream behind `InputStream` and the decoder API: what
each call returns and the stream state it leaves, as functions of the stream
state `σ`. -/
structure StreamAdapter (σ : Type) where
  /-- `decoder_read(decoder, is, dst, maxLen)`: the bytes stored at `dst`
  (their number is the returned `nbytes`). -/
  read : σ → Nat → List Byte × σ
  /-- `decoder_skip(decoder, is, nbytes)`. -/
  skip : σ → Nat → Bool × σ
  /-- `decoder_read_full(decoder, is, dst, nbytes)`. -/
  readFull : σ → Nat → Option (List Byte) × σ
  /-- `is.IsSeekable()`. -/
  isSeekable : σ → Bool
  /-- `is.Seek(offset, error)`. -/
  seek : σ → Nat → Bool × σ
  /-- `is.GetOffset()`. -/
  getOffset : σ → Nat
  /-- `is.GetSize()`. -/
  getSize : σ → Nat

/-- A stream in some state, with the calls made on it so far (oldest first). -/
structure InputStream (σ : Type) where
  state : σ
  calls : List StreamCall
deriving DecidableEq, Repr

/-- The stream honours the contract of `read`: at most `maxLen` bytes. -/
def ReadBounded {σ : Type} (io : StreamAdapter σ) : Prop :=
  ∀ (s : σ) (maxLen : Nat), (io.read s maxLen).1.length ≤ maxLen

/-- The stream state left by successive reads that ask for the given numbers
of bytes. -/
def afterReads {σ : Type} (io : StreamAdapter σ) : σ → List Nat → σ
  | s, [] => s
  | s, n :: ns => afterReads io (io.read s n).2 ns

/-- The source is exhausted in state `s`: every read from now on returns
0 bytes. -/
def ExhaustedFrom {σ : Type} (io : StreamAdapter σ) (s : σ) : Prop :=
  ∀ (ns : List Nat) (maxLen : Nat), (io.read (afterReads io s ns) maxLen).1 = []

/-- Call `decoder_read` on the stream, asking for at most `maxLen` bytes. -/
def decoder_read {σ : Type} (io : StreamAdapter σ) (is : InputStream σ) (maxLen : Nat) :
    List Byte × InputStream σ :=
  ((io.read is.state maxLen).1,
   { state := (io.read is.state maxLen).2, calls := is.calls ++ [StreamCall.read maxLen] })

/-- Call `decoder_skip` on the stream for `nbytes` bytes. -/
def decoder_skip {σ : Type} (io : StreamAdapter σ) (is : InputStream σ) (nbytes : Nat) :
    Bool × InputStream σ :=
  ((io.skip is.state nbytes).1,
   { state := (io.skip is.state nbytes).2, calls := is.calls ++ [StreamCall.skip nbytes] })

/-- The fields of `struct DecoderBuffer`; the `decoder` and `is` pointers are
the stream passed next to the buffer. -/
structure DecoderBuffer where
  /-- the allocated size of the buffer -/
  size : Nat
  /-- the current length of the buffer -/
  length : Nat
  /-- number of bytes already consumed at the beginning of the buffer -/
  consumed : Nat
  /-- the actual buffer -/
  data : List Byte
deriving DecidableEq, Repr

/-- The bounds the code asserts, and the storage being `size` bytes long. -/
def DecoderBuffer.Valid (b : DecoderBuffer) : Prop :=
  b.consumed ≤ b.length ∧ b.length ≤ b.size ∧ b.data.length = b.size

instance (b : DecoderBuffer) : Decidable b.Valid := by
  unfold DecoderBuffer.Valid; infer_instance

/-- A `ConstBuffer<void>`: `data` is the index into the storage the pointer
refers to, `none` for `nullptr`. -/
structure ConstBuffer where
  data : Option Nat
  size : Nat
deriving DecidableEq, Repr

/-- The buffer `return nullptr` converts to. -/
def ConstBuffer.null : ConstBuffer := { data := none, size := 0 }

/-- `ConstBuffer::IsNull()`. -/
def ConstBuffer.IsNull (v : ConstBuffer) : Bool := v.data.isNone

/-- The bytes a view denotes in the storage of `b`. -/
def DecoderBuffer.bytes (b : DecoderBuffer) (v : ConstBuffer) : List Byte :=
  match v.data with
  | none => []
  | some i => (b.data.drop i).take v.size

/-- The constructor run by `decoder_buffer_new` (which asserts `size > 0`);
the fresh storage, whose content is indeterminate, is taken to hold zeros. -/
def decoder_buffer_new (size : Nat) : DecoderBuffer :=
  { size := size, length := 0, consumed := 0, data := List.replicate size 0 }

/-- The call `decoder_buffer_new(decoder, is, size)` together with its
`assert(size > 0)`.  Whether `NDEBUG` is defined comes from the build
configuration, which is not part of the sources at hand, so it is the
parameter `ndebug`.  Without `NDEBUG` a `size` of 0 aborts the program at the
assertion and there is no instance, `none`; in every other case the instance
is constructed and returned. -/
def decoder_buffer_new_asserting (ndebug : Bool) (size : Nat) : Option DecoderBuffer :=
  if ndebug = false ∧ ¬ size > 0 then none else some (decoder_buffer_new size)

/-- Clear: `buffer->length = buffer->consumed = 0`. -/
def decoder_buffer_clear (b : DecoderBuffer) : DecoderBuffer :=
  { b with length := 0, consumed := 0 }

/-- Shift: `length -= consumed`, then `memmove(data, data + consumed, length)`
with the new `length`, then `consumed = 0` (asserts `consumed > 0`). -/
def decoder_buffer_shift (b : DecoderBuffer) : DecoderBuffer :=
  { b with length := b.length - b.consumed,
           data := (b.data.drop b.consumed).take (b.length - b.consumed)
                     ++ b.data.drop (b.length - b.consumed),
           consumed := 0 }

/-- The state of the buffer when `decoder_buffer_fill` reaches its
`length >= size` test. -/
def compacted (b : DecoderBuffer) : DecoderBuffer :=
  if b.consumed > 0 then decoder_buffer_shift b else b

/-- Fill: shift when `consumed > 0`; fail when `length >= size`; otherwise
`decoder_read` at most `size - length` bytes to `data + length`, fail when it
returns 0, else add the count to `length` and succeed. -/
def decoder_buffer_fill {σ : Type} (io : StreamAdapter σ) (b : DecoderBuffer)
    (is : InputStream σ) : Bool × DecoderBuffer × InputStream σ :=
  let b1 := compacted b
  if b1.length ≥ b1.size then
    (false, b1, is)
  else
    let r := decoder_read io is (b1.size - b1.length)
    let nbytes := r.1.length
    if nbytes = 0 then
      (false, b1, r.2)
    else
      (true,
       { b1 with length := b1.length + nbytes,
                 data := b1.data.take b1.length ++ r.1 ++ b1.data.drop (b1.length + nbytes) },
       r.2)

/-- The pointer `data + consumed`, as an index into the storage. -/
def decoder_buffer_head (b : DecoderBuffer) : Nat := b.consumed

/-- Available: `length - consumed`. -/
def decoder_buffer_available (b : DecoderBuffer) : Nat := b.length - b.consumed

/-- Read: the view `{head, available}`. -/
def decoder_buffer_read (b : DecoderBuffer) : ConstBuffer :=
  { data := some (decoder_buffer_head b), size := decoder_buffer_available b }

/-- The unread bytes: the content of the view `decoder_buffer_read` returns. -/
def DecoderBuffer.unread (b : DecoderBuffer) : List Byte :=
  b.bytes (decoder_buffer_read b)

/-- Need: the loop `while (true)`: return the view once `available >=
min_size`, else fill and go round again, returning `nullptr` when the fill
fails.  Each round that goes on has raised `available`, which stays below
`size`, hence the recursion is well founded. -/
def decoder_buffer_need {σ : Type} (io : StreamAdapter σ) (b : DecoderBuffer)
    (is : InputStream σ) (min_size : Nat) : ConstBuffer × DecoderBuffer × InputStream σ :=
  if decoder_buffer_available b ≥ min_size then
    ({ data := some (decoder_buffer_head b), size := decoder_buffer_available b }, b, is)
  else if _hfill : (decoder_buffer_fill io b is).1 = true then
    decoder_buffer_need io (decoder_buffer_fill io b is).2.1 (decoder_buffer_fill io b is).2.2
      min_size
  else
    (ConstBuffer.null, (decoder_buffer_fill io b is).2.1, (decoder_buffer_fill io b is).2.2)
termination_by b.size - decoder_buffer_available b
decreasing_by
  simp only [decoder_buffer_fill, compacted, decoder_buffer_shift,
    decoder_buffer_available] at _hfill ⊢
  split_ifs at _hfill ⊢ <;> simp only [Bool.false_eq_true] at _hfill <;>
    simp only [] at * <;> omega

/-- Consume: `consumed += nbytes` (then asserts `consumed <= length`). -/
def decoder_buffer_consume (b : DecoderBuffer) (nbytes : Nat) : DecoderBuffer :=
  { b with consumed := b.consumed + nbytes }

/-- Skip: consume when `available >= nbytes`; otherwise clear, subtract
`available` from `nbytes` and return `decoder_skip` of the rest. -/
def decoder_buffer_skip {σ : Type} (io : StreamAdapter σ) (b : DecoderBuffer)
    (is : InputStream σ) (nbytes : Nat) : Bool × DecoderBuffer × InputStream σ :=
  let available := decoder_buffer_available b
  if available ≥ nbytes then
    (true, decoder_buffer_consume b nbytes, is)
  else
    let b1 := decoder_buffer_clear b
    let nbytes1 := nbytes - available
    ((decoder_skip io is nbytes1).1, b1, (decoder_skip io is nbytes1).2)

/-- The buffer and the stream after `k` successive calls of
`decoder_buffer_need` with the same `min_size`. -/
def needRepeated {σ : Type} (io : StreamAdapter σ) (min_size : Nat) :
    Nat → DecoderBuffer × InputStream σ → DecoderBuffer × InputStream σ
  | 0, st => st
  | k + 1, st => needRepeated io min_size k (decoder_buffer_need io st.1 st.2 min_size).2

/-- A source that is not seekable and hands out its remaining bytes in the
given chunks, one chunk (or its first `maxLen` bytes) per read; when no
chunk is left a read returns 0 bytes. -/
structure ChunkSource where
  chunks : List (List Byte)
  offset : Nat
deriving DecidableEq, Repr

/-- A read pops the next chunk, or its first `maxLen` bytes when it is longer. -/
def ChunkSource.read : ChunkSource → Nat → List Byte × ChunkSource
  | { chunks := [], offset := o }, _ => ([], { chunks := [], offset := o })
  | { chunks := c :: rest, offset := o }, maxLen =>
    if c.length ≤ maxLen then (c, { chunks := rest, offset := o + c.length })
    else (c.take maxLen, { chunks := c.drop maxLen :: rest, offset := o + maxLen })

/-- Discards `nbytes` bytes, or fails when fewer are left. -/
def ChunkSource.skip (s : ChunkSource) (nbytes : Nat) : Bool × ChunkSource :=
  if nbytes ≤ s.chunks.flatten.length then
    (true, { chunks := [s.chunks.flatten.drop nbytes], offset := s.offset + nbytes })
  else
    (false, { chunks := [], offset := s.offset + s.chunks.flatten.length })

/-- Returns exactly `nbytes` bytes, or fails when fewer are left. -/
def ChunkSource.readFull (s : ChunkSource) (nbytes : Nat) : Option (List Byte) × ChunkSource :=
  if nbytes ≤ s.chunks.flatten.length then
    (some (s.chunks.flatten.take nbytes),
     { chunks := [s.chunks.flatten.drop nbytes], offset := s.offset + nbytes })
  else
    (none, { chunks := [], offset := s.offset + s.chunks.flatten.length })

/-- The chunked source as a stream behaviour. -/
def chunkAdapter : StreamAdapter ChunkSource :=
  { read := ChunkSource.read,
    skip := ChunkSource.skip,
    readFull := ChunkSource.readFull,
    isSeekable := fun _ => false,
    seek := fun s _ => (false, s),
    getOffset := fun s => s.offset,
    getSize := fun s => s.offset + s.chunks.flatten.length }

/-- A stream over the given chunks on which no call has been made yet. -/
def chunkStream (chunks : List (List Byte)) : InputStream ChunkSource :=
  { state := { chunks := chunks, offset := 0 }, calls := [] }

/-! ## `src/decoder/plugins/DsdLib.cxx` -/

/-- Call `is.Seek(offset, IgnoreError())`. -/
def InputStream.Seek {σ : Type} (io : StreamAdapter σ) (is : InputStream σ) (offset : Nat) :
    Bool × InputStream σ :=
  ((io.seek is.state offset).1,
   { state := (io.seek is.state offset).2, calls := is.calls ++ [StreamCall.seek offset] })

/-- Call `decoder_read_full` on the stream for exactly `nbytes` bytes: the
bytes stored at `dst` when it returns true, `none` when it returns false. -/
def decoder_read_full {σ : Type} (io : StreamAdapter σ) (is : InputStream σ) (nbytes : Nat) :
    Option (List Byte) × InputStream σ :=
  ((io.readFull is.state nbytes).1,
   { state := (io.readFull is.state nbytes).2,
     calls := is.calls ++ [StreamCall.readFull nbytes] })

/-- Skip some bytes from the stream.  `delta` is a `uint64_t`, so the sum
`is.GetOffset() + delta` is computed modulo `2 ^ 64`. -/
def dsdlib_skip {σ : Type} (io : StreamAdapter σ) (is : InputStream σ) (delta : Nat) :
    Bool × InputStream σ :=
  if delta = 0 then
    (true, is)
  else if io.isSeekable is.state = true then
    InputStream.Seek io is ((io.getOffset is.state + delta) % 2 ^ 64)
  else if delta > 1024 * 1024 then
    (false, is)
  else
    decoder_skip io is delta

/-- Skip the stream to the specified offset.  The subtraction is reached only
when `is.GetOffset() <= offset`. -/
def dsdlib_skip_to {σ : Type} (io : StreamAdapter σ) (is : InputStream σ) (offset : Nat) :
    Bool × InputStream σ :=
  if io.isSeekable is.state = true then
    InputStream.Seek io is offset
  else if io.getOffset is.state > offset then
    (false, is)
  else
    dsdlib_skip io is (offset - io.getOffset is.state)

/-- The tag library behind `dsdlib_tag_id3`, which is not part of the sources
at hand: `parse` is `id3_tag_parse(data, count)` (`none` for a null result)
and `scan` lists the invocations of the tag handler that `scan_id3_tag` makes
for a parsed tag. -/
structure TagScanner (τ φ : Type) where
  parse : List Byte → Nat → Option τ
  scan : τ → List φ

/-- Read the ID3 tag at `tagoffset` (an `int64_t` asserted to be `>= 0`):
the stream that is left and the invocations of the tag handler.  `count` has
type `id3_length_t` (`unsigned long`), taken to be wide enough for the
difference of two offsets, as it is where `long` has 64 bits. -/
def dsdlib_tag_id3 {σ τ φ : Type} (io : StreamAdapter σ) (tp : TagScanner τ φ)
    (is : InputStream σ) (tagoffset : Nat) : InputStream σ × List φ :=
  if tagoffset = 0 then
    (is, [])
  else if (dsdlib_skip_to io is tagoffset).1 = false then
    ((dsdlib_skip_to io is tagoffset).2, [])
  else
    let is1 := (dsdlib_skip_to io is tagoffset).2
    let size := io.getSize is1.state
    let offset := io.getOffset is1.state
    if offset ≥ size then
      (is1, [])
    else
      let count := size - offset
      if count = 0 ∨ count > 4096 then
        (is1, [])
      else
        match (decoder_read_full io is1 count).1 with
        | none => ((decoder_read_full io is1 count).2, [])
        | some dsdid3 =>
          match tp.parse dsdid3 count with
          | none => ((decoder_read_full io is1 count).2, [])
          | some id3_tag => ((decoder_read_full io is1 count).2, tp.scan id3_tag)

/-- The loop of `decoder_buffer_need` when it may call `decoder_buffer_fill`
at most `fills` times: `none` when one more call would be needed. -/
def needWithin {σ : Type} (io : StreamAdapter σ) :
    Nat → DecoderBuffer → InputStream σ → Nat →
      Option (ConstBuffer × DecoderBuffer × InputStream σ)
  | 0, b, is, min_size =>
    if decoder_buffer_available b ≥ min_size then some (decoder_buffer_read b, b, is)
    else none
  | fills + 1, b, is, min_size =>
    if decoder_buffer_available b ≥ min_size then some (decoder_buffer_read b, b, is)
    else if (decoder_buffer_fill io b is).1 = true then
      needWithin io fills (decoder_buffer_fill io b is).2.1 (decoder_buffer_fill io b is).2.2
        min_size
    else
      some (ConstBuffer.null, (decoder_buffer_fill io b is).2.1,
        (decoder_buffer_fill io b is).2.2)

/-- Every read that asks for at least one byte returns at least one. -/
def Productive {σ : Type} (io : StreamAdapter σ) : Prop :=
  ∀ (s : σ) (maxLen : Nat), 0 < maxLen → (io.read s maxLen).1 ≠ []

/-- A seekable source: a file of known content and the read position in it. -/
structure FileSource where
  content : List Byte
  pos : Nat
deriving DecidableEq, Repr

/-- The file as a stream behaviour; a seek beyond the end fails. -/
def fileAdapter : StreamAdapter FileSource :=
  { read := fun s n =>
      ((s.content.drop s.pos).take n,
       { s with pos := s.pos + ((s.content.drop s.pos).take n).length }),
    skip := fun s n =>
      if s.pos + n ≤ s.content.length then (true, { s with pos := s.pos + n })
      else (false, { s with pos := s.content.length }),
    readFull := fun s n =>
      if s.pos + n ≤ s.content.length then
        (some ((s.content.drop s.pos).take n), { s with pos := s.pos + n })
      else (none, { s with pos := s.content.length }),
    isSeekable := fun _ => true,
    seek := fun s o =>
      if o ≤ s.content.length then (true, { s with pos := o }) else (false, s),
    getOffset := fun s => s.pos,
    getSize := fun s => s.content.length }

/-- A stream over the file, positioned at `pos`, on which no call has been
made yet. -/
def fileStream (content : List Byte) (pos : Nat) : InputStream FileSource :=
  { state := { content := content, pos := pos }, calls := [] }

/-- A source without end that is not seekable: each read that asks for at
least one byte returns one byte, the low byte of the offset. -/
def endlessAdapter : StreamAdapter Nat :=
  { read := fun o n => if n = 0 then ([], o) else ([Fin.ofNat o], o + 1),
    skip := fun o n => (true, o + n),
    readFull := fun o n => (some ((List.range n).map fun i => Fin.ofNat (o + i)), o + n),
    isSeekable := fun _ => false,
    seek := fun o _ => (false, o),
    getOffset := fun o => o,
    getSize := fun o => o }

/-- A tag library that takes every block for a tag and reports each of its
bytes to the handler. -/
def byteScanner : TagScanner (List Byte) Byte :=
  { parse := fun bytes _ => some bytes, scan := fun tag => tag }

/-! ## Compaction and the three outcomes of `decoder_buffer_fill` -/

theorem unread_eq (b : DecoderBuffer) :
    b.unread = (b.data.drop b.consumed).take (b.length - b.consumed) := rfl

theorem compacted_size (b : DecoderBuffer) : (compacted b).size = b.size := by
  unfold compacted decoder_buffer_shift; split_ifs <;> rfl

theorem compacted_consumed (b : DecoderBuffer) : (compacted b).consumed = 0 := by
  unfold compacted decoder_buffer_shift
  split_ifs with h
  · rfl
  · omega

theorem compacted_length (b : DecoderBuffer) :
    (compacted b).length = decoder_buffer_available b := by
  unfold compacted decoder_buffer_shift decoder_buffer_available
  split_ifs with h
  · rfl
  · simp at h; simp [h]

theorem compacted_data_length (b : DecoderBuffer) (h : b.length ≤ b.data.length) :
    (compacted b).data.length = b.data.length := by
  unfold compacted decoder_buffer_shift
  split_ifs
  · simp; omega
  · rfl

theorem compacted_unread (b : DecoderBuffer) (h : b.length ≤ b.data.length) :
    (compacted b).unread = b.unread := by
  unfold compacted
  split_ifs with hc
  · simp only [unread_eq, decoder_buffer_shift, List.drop_zero, Nat.sub_zero]
    rw [List.take_append_of_le_length (by simp; omega)]
    simp
  · rfl

theorem compacted_valid (b : DecoderBuffer) (h : b.Valid) : (compacted b).Valid := by
  obtain ⟨h1, h2, h3⟩ := h
  refine ⟨?_, ?_, ?_⟩
  · rw [compacted_consumed]; exact Nat.zero_le _
  · rw [compacted_length, compacted_size]; unfold decoder_buffer_available; omega
  · rw [compacted_data_length b (by omega), compacted_size]; exact h3

theorem fill_full {σ : Type} (io : StreamAdapter σ) (b : DecoderBuffer) (is : InputStream σ)
    (h : b.size ≤ decoder_buffer_available b) :
    decoder_buffer_fill io b is = (false, compacted b, is) := by
  have h1 := compacted_length b
  have h2 := compacted_size b
  simp only [decoder_buffer_fill]
  rw [if_pos (by omega)]

theorem fill_read_nil {σ : Type} (io : StreamAdapter σ) (b : DecoderBuffer) (is : InputStream σ)
    (h : decoder_buffer_available b < b.size)
    (hr : (io.read is.state (b.size - decoder_buffer_available b)).1 = []) :
    decoder_buffer_fill io b is
      = (false, compacted b, (decoder_read io is (b.size - decoder_buffer_available b)).2) := by
  have h1 := compacted_length b
  have h2 := compacted_size b
  simp only [decoder_buffer_fill]
  rw [if_neg (by omega), h1, h2]
  rw [if_pos (by simp [decoder_read, hr])]

theorem fill_read_cons {σ : Type} (io : StreamAdapter σ) (b : DecoderBuffer) (is : InputStream σ)
    (h : decoder_buffer_available b < b.size)
    (hr : (io.read is.state (b.size - decoder_buffer_available b)).1 ≠ []) :
    decoder_buffer_fill io b is
      = (true,
         { compacted b with
             length := decoder_buffer_available b
               + (io.read is.state (b.size - decoder_buffer_available b)).1.length,
             data := (compacted b).data.take (decoder_buffer_available b)
               ++ (io.read is.state (b.size - decoder_buffer_available b)).1
               ++ (compacted b).data.drop (decoder_buffer_available b
                    + (io.read is.state (b.size - decoder_buffer_available b)).1.length) },
         (decoder_read io is (b.size - decoder_buffer_available b)).2) := by
  have h1 := compacted_length b
  have h2 := compacted_size b
  simp only [decoder_buffer_fill]
  rw [if_neg (by omega), h1, h2]
  rw [if_neg (by simpa [decoder_read] using hr)]
  rfl

/-- Whether `decoder_buffer_fill` succeeds, in terms of the state before. -/
theorem fill_success_iff {σ : Type} (io : StreamAdapter σ) (b : DecoderBuffer)
    (is : InputStream σ) :
    (decoder_buffer_fill io b is).1 = true ↔
      decoder_buffer_available b < b.size ∧
        (io.read is.state (b.size - decoder_buffer_available b)).1 ≠ [] := by
  by_cases h : decoder_buffer_available b < b.size
  · by_cases hr : (io.read is.state (b.size - decoder_buffer_available b)).1 = []
    · rw [fill_read_nil io b is h hr]; simp [hr]
    · rw [fill_read_cons io b is h hr]; simp [h, hr]
  · rw [fill_full io b is (by omega)]; simp [h]

theorem fill_success_unread {σ : Type} (io : StreamAdapter σ) (b : DecoderBuffer)
    (is : InputStream σ) (hl : b.length ≤ b.data.length)
    (hs : (decoder_buffer_fill io b is).1 = true) :
    (decoder_buffer_fill io b is).2.1.unread
      = b.unread ++ (io.read is.state (b.size - decoder_buffer_available b)).1 := by
  obtain ⟨h, hr⟩ := (fill_success_iff io b is).1 hs
  rw [fill_read_cons io b is h hr]
  have hc := compacted_consumed b
  have hu := compacted_unread b hl
  have hlen := compacted_length b
  have hd := compacted_data_length b hl
  rw [unread_eq] at hu ⊢
  rw [hc, hlen] at hu
  simp only [hc, List.drop_zero, Nat.sub_zero] at hu ⊢
  rw [← hu]
  have ha : decoder_buffer_available b ≤ (compacted b).data.length := by
    unfold decoder_buffer_available; omega
  rw [List.take_append_of_le_length (by simp; omega)]
  rw [List.take_of_length_le (by simp)]

theorem fill_failure_unread {σ : Type} (io : StreamAdapter σ) (b : DecoderBuffer)
    (is : InputStream σ) (hl : b.length ≤ b.data.length)
    (hs : (decoder_buffer_fill io b is).1 = false) :
    (decoder_buffer_fill io b is).2.1 = compacted b ∧
      (decoder_buffer_fill io b is).2.1.unread = b.unread := by
  by_cases h : decoder_buffer_available b < b.size
  · by_cases hr : (io.read is.state (b.size - decoder_buffer_available b)).1 = []
    · rw [fill_read_nil io b is h hr]; exact ⟨rfl, compacted_unread b hl⟩
    · rw [fill_read_cons io b is h hr] at hs; simp at hs
  · rw [fill_full io b is (by omega)]; exact ⟨rfl, compacted_unread b hl⟩

theorem fill_valid {σ : Type} (io : StreamAdapter σ) (b : DecoderBuffer) (is : InputStream σ)
    (hv : b.Valid)
    (hk : (io.read is.state (b.size - decoder_buffer_available b)).1.length
            ≤ b.size - decoder_buffer_available b) :
    (decoder_buffer_fill io b is).2.1.Valid := by
  have hcv := compacted_valid b hv
  by_cases h : decoder_buffer_available b < b.size
  · by_cases hr : (io.read is.state (b.size - decoder_buffer_available b)).1 = []
    · rw [fill_read_nil io b is h hr]; exact hcv
    · rw [fill_read_cons io b is h hr]
      obtain ⟨h1, h2, h3⟩ := hcv
      have hc := compacted_consumed b
      have hsz := compacted_size b
      have hlen := compacted_length b
      refine ⟨?_, ?_, ?_⟩
      · simp only [hc]; exact Nat.zero_le _
      · simp only [hsz]; omega
      · simp only [hsz, List.length_append, List.length_take, List.length_drop]; omega
  · rw [fill_full io b is (by omega)]; exact hcv

/-- C1 (compaction correctness of `decoder_buffer_fill`): for a buffer with
`consumed <= length <= size` and a read that returns at most the `maxLen`
bytes it was asked for, a successful fill leaves a view that starts at
storage index 0 and whose content is the unread bytes from before the call
followed by the bytes just read (at least one), in order; the bounds still
hold. -/
theorem fill_compaction_correct {σ : Type} (io : StreamAdapter σ) (b : DecoderBuffer)
    (is : InputStream σ) (hv : b.Valid)
    (hk : (io.read is.state (b.size - decoder_buffer_available b)).1.length
            ≤ b.size - decoder_buffer_available b)
    (hs : (decoder_buffer_fill io b is).1 = true) :
    1 ≤ (io.read is.state (b.size - decoder_buffer_available b)).1.length ∧
    decoder_buffer_read (decoder_buffer_fill io b is).2.1
      = { data := some 0,
          size := decoder_buffer_available b
            + (io.read is.state (b.size - decoder_buffer_available b)).1.length } ∧
    (decoder_buffer_fill io b is).2.1.unread
      = b.unread ++ (io.read is.state (b.size - decoder_buffer_available b)).1 ∧
    (decoder_buffer_fill io b is).2.1.Valid := by
  have hl : b.length ≤ b.data.length := by
    obtain ⟨_, h2, h3⟩ := hv; omega
  obtain ⟨h, hr⟩ := (fill_success_iff io b is).1 hs
  refine ⟨?_, ?_, fill_success_unread io b is hl hs, fill_valid io b is hv hk⟩
  · exact List.length_pos.2 hr
  · rw [fill_read_cons io b is h hr]
    simp [decoder_buffer_read, decoder_buffer_head, decoder_buffer_available,
      compacted_consumed]

theorem fill_compaction_correct_witness :
    (DecoderBuffer.mk 8 5 3 [1, 2, 3, 4, 5, 0, 0, 0]).Valid ∧
    (decoder_buffer_fill chunkAdapter (DecoderBuffer.mk 8 5 3 [1, 2, 3, 4, 5, 0, 0, 0])
        (chunkStream [[6, 7]])).1 = true ∧
    (decoder_buffer_fill chunkAdapter (DecoderBuffer.mk 8 5 3 [1, 2, 3, 4, 5, 0, 0, 0])
        (chunkStream [[6, 7]])).2.1.unread = [4, 5] ++ [6, 7] :=
  ⟨by decide, by decide,
   (fill_compaction_correct chunkAdapter (DecoderBuffer.mk 8 5 3 [1, 2, 3, 4, 5, 0, 0, 0])
      (chunkStream [[6, 7]]) (by decide) (by decide) (by decide)).2.2.1⟩

/-! ## The loop of `decoder_buffer_need` -/

theorem compacted_available (b : DecoderBuffer) :
    decoder_buffer_available (compacted b) = decoder_buffer_available b := by
  have h1 := compacted_length b
  have h2 := compacted_consumed b
  unfold decoder_buffer_available at h1 ⊢
  omega

theorem fill_failure_buffer {σ : Type} (io : StreamAdapter σ) (b : DecoderBuffer)
    (is : InputStream σ) (hs : (decoder_buffer_fill io b is).1 = false) :
    (decoder_buffer_fill io b is).2.1 = compacted b := by
  by_cases h : decoder_buffer_available b < b.size
  · by_cases hr : (io.read is.state (b.size - decoder_buffer_available b)).1 = []
    · rw [fill_read_nil io b is h hr]
    · rw [fill_read_cons io b is h hr] at hs; simp at hs
  · rw [fill_full io b is (by omega)]

theorem fill_success_available {σ : Type} (io : StreamAdapter σ) (b : DecoderBuffer)
    (is : InputStream σ) (hs : (decoder_buffer_fill io b is).1 = true) :
    decoder_buffer_available (decoder_buffer_fill io b is).2.1
      = decoder_buffer_available b
        + (io.read is.state (b.size - decoder_buffer_available b)).1.length := by
  obtain ⟨h, hr⟩ := (fill_success_iff io b is).1 hs
  rw [fill_read_cons io b is h hr]
  simp [decoder_buffer_available, compacted_consumed]

theorem need_enough {σ : Type} (io : StreamAdapter σ) (b : DecoderBuffer) (is : InputStream σ)
    (min_size : Nat) (h : min_size ≤ decoder_buffer_available b) :
    decoder_buffer_need io b is min_size = (decoder_buffer_read b, b, is) := by
  rw [decoder_buffer_need, if_pos h]; rfl

theorem need_fill_success {σ : Type} (io : StreamAdapter σ) (b : DecoderBuffer)
    (is : InputStream σ) (min_size : Nat) (h : decoder_buffer_available b < min_size)
    (hs : (decoder_buffer_fill io b is).1 = true) :
    decoder_buffer_need io b is min_size
      = decoder_buffer_need io (decoder_buffer_fill io b is).2.1
          (decoder_buffer_fill io b is).2.2 min_size := by
  rw [decoder_buffer_need, if_neg (by omega), dif_pos hs]

theorem need_fill_failure {σ : Type} (io : StreamAdapter σ) (b : DecoderBuffer)
    (is : InputStream σ) (min_size : Nat) (h : decoder_buffer_available b < min_size)
    (hs : (decoder_buffer_fill io b is).1 = false) :
    decoder_buffer_need io b is min_size
      = (ConstBuffer.null, compacted b, (decoder_buffer_fill io b is).2.2) := by
  rw [decoder_buffer_need, if_neg (by omega), dif_neg (by simp [hs]),
    fill_failure_buffer io b is hs]

/-- The two ways `decoder_buffer_need` returns. -/
theorem need_outcome {σ : Type} (io : StreamAdapter σ) (b : DecoderBuffer)
    (is : InputStream σ) (min_size : Nat) :
    ((decoder_buffer_need io b is min_size).1.IsNull = false ∧
      min_size ≤ (decoder_buffer_need io b is min_size).1.size ∧
      (decoder_buffer_need io b is min_size).1
        = decoder_buffer_read (decoder_buffer_need io b is min_size).2.1) ∨
    ((decoder_buffer_need io b is min_size).1 = ConstBuffer.null ∧
      decoder_buffer_available b
        ≤ decoder_buffer_available (decoder_buffer_need io b is min_size).2.1 ∧
      decoder_buffer_available (decoder_buffer_need io b is min_size).2.1 < min_size ∧
      ((decoder_buffer_fill io b is).1 = false →
        decoder_buffer_available (decoder_buffer_need io b is min_size).2.1
          = decoder_buffer_available b)) := by
  induction b, is, min_size using decoder_buffer_need.induct io with
  | case1 b is min_size h =>
    left
    rw [need_enough io b is min_size h]
    exact ⟨rfl, h, rfl⟩
  | case2 b is min_size h hs ih =>
    have hlt : decoder_buffer_available b < min_size := by omega
    have hav := fill_success_available io b is hs
    rw [need_fill_success io b is min_size hlt hs]
    rcases ih with ih | ⟨h1, h2, h3, _⟩
    · exact Or.inl ih
    · refine Or.inr ⟨h1, by omega, h3, ?_⟩
      intro hf; rw [hs] at hf; exact absurd hf (by decide)
  | case3 b is min_size h hs =>
    have hlt : decoder_buffer_available b < min_size := by omega
    have hf : (decoder_buffer_fill io b is).1 = false := by simpa using hs
    rw [need_fill_failure io b is min_size hlt hf]
    refine Or.inr ⟨rfl, ?_, ?_, fun _ => ?_⟩
    · show _ ≤ decoder_buffer_available (compacted b)
      rw [compacted_available]
    · show decoder_buffer_available (compacted b) < _
      rw [compacted_available]; exact hlt
    · show decoder_buffer_available (compacted b) = _
      rw [compacted_available]

/-- C2, as the code has it: `decoder_buffer_need` either returns the current
view, of length `>= min_size`, or returns the null buffer; in that case the
number of available bytes has not decreased and is still below `min_size`
(the bytes appended by the fills that succeeded before the failing one stay
in the buffer), and it is unchanged when the first fill already fails. -/
theorem need_view_or_failure {σ : Type} (io : StreamAdapter σ) (b : DecoderBuffer)
    (is : InputStream σ) (min_size : Nat) :
    ((decoder_buffer_need io b is min_size).1.IsNull = false ∧
      min_size ≤ (decoder_buffer_need io b is min_size).1.size ∧
      (decoder_buffer_need io b is min_size).1
        = decoder_buffer_read (decoder_buffer_need io b is min_size).2.1) ∨
    ((decoder_buffer_need io b is min_size).1 = ConstBuffer.null ∧
      decoder_buffer_available b
        ≤ decoder_buffer_available (decoder_buffer_need io b is min_size).2.1 ∧
      decoder_buffer_available (decoder_buffer_need io b is min_size).2.1 < min_size ∧
      ((decoder_buffer_fill io b is).1 = false →
        decoder_buffer_available (decoder_buffer_need io b is min_size).2.1
          = decoder_buffer_available b)) :=
  need_outcome io b is min_size

theorem need_chunk5_eval :
    decoder_buffer_need chunkAdapter (decoder_buffer_new 16)
        (chunkStream [[1, 2, 3, 4, 5]]) 10
      = (ConstBuffer.null,
         { size := 16, length := 5, consumed := 0,
           data := [1, 2, 3, 4, 5, 0, 0, 0, 0, 0, 0, 0, 0, 0, 0, 0] },
         { state := { chunks := [], offset := 5 },
           calls := [StreamCall.read 16, StreamCall.read 11] }) := by
  rw [need_fill_success _ _ _ _ (by decide) (by decide)]
  rw [need_fill_failure _ _ _ _ (by decide) (by decide)]
  rfl

/-- C2 as stated fails: on a fresh buffer of 16 bytes over a source that
holds 5 bytes, `decoder_buffer_need` for 10 bytes returns the null buffer
and leaves 5 bytes available where there were none. -/
theorem need_failure_keeps_read_bytes :
    ¬ (((decoder_buffer_need chunkAdapter (decoder_buffer_new 16)
            (chunkStream [[1, 2, 3, 4, 5]]) 10).1.IsNull = false ∧
        10 ≤ (decoder_buffer_need chunkAdapter (decoder_buffer_new 16)
            (chunkStream [[1, 2, 3, 4, 5]]) 10).1.size) ∨
       ((decoder_buffer_need chunkAdapter (decoder_buffer_new 16)
            (chunkStream [[1, 2, 3, 4, 5]]) 10).1.IsNull = true ∧
        decoder_buffer_available (decoder_buffer_need chunkAdapter (decoder_buffer_new 16)
            (chunkStream [[1, 2, 3, 4, 5]]) 10).2.1
          = decoder_buffer_available (decoder_buffer_new 16))) := by
  rw [need_chunk5_eval]
  decide

/-! ## The bounds as an invariant -/

theorem fill_size {σ : Type} (io : StreamAdapter σ) (b : DecoderBuffer) (is : InputStream σ) :
    (decoder_buffer_fill io b is).2.1.size = b.size := by
  by_cases h : decoder_buffer_available b < b.size
  · by_cases hr : (io.read is.state (b.size - decoder_buffer_available b)).1 = []
    · rw [fill_read_nil io b is h hr]; exact compacted_size b
    · rw [fill_read_cons io b is h hr]; exact compacted_size b
  · rw [fill_full io b is (by omega)]; exact compacted_size b

theorem need_valid {σ : Type} (io : StreamAdapter σ) (hio : ReadBounded io)
    (b : DecoderBuffer) (is : InputStream σ) (min_size : Nat) (hv : b.Valid) :
    (decoder_buffer_need io b is min_size).2.1.Valid := by
  induction b, is, min_size using decoder_buffer_need.induct io with
  | case1 b is min_size h =>
    rw [need_enough io b is min_size h]; exact hv
  | case2 b is min_size h hs ih =>
    rw [need_fill_success io b is min_size (by omega) hs]
    exact ih (fill_valid io b is hv (hio _ _))
  | case3 b is min_size h hs =>
    rw [need_fill_failure io b is min_size (by omega) (by simpa using hs)]
    exact compacted_valid b hv

theorem need_size {σ : Type} (io : StreamAdapter σ) (b : DecoderBuffer) (is : InputStream σ)
    (min_size : Nat) : (decoder_buffer_need io b is min_size).2.1.size = b.size := by
  induction b, is, min_size using decoder_buffer_need.induct io with
  | case1 b is min_size h =>
    rw [need_enough io b is min_size h]
  | case2 b is min_size h hs ih =>
    rw [need_fill_success io b is min_size (by omega) hs, ih, fill_size]
  | case3 b is min_size h hs =>
    rw [need_fill_failure io b is min_size (by omega) (by simpa using hs)]
    exact compacted_size b

theorem chunk_read_bounded : ReadBounded chunkAdapter := by
  intro s maxLen
  obtain ⟨chunks, o⟩ := s
  cases chunks with
  | nil => simp [chunkAdapter, ChunkSource.read]
  | cons c rest =>
    simp only [chunkAdapter, ChunkSource.read]
    split_ifs with h
    · exact h
    · simp

/-- C3: the bounds `consumed <= length <= size` (with a storage of `size`
bytes) hold for a new buffer and, over a stream whose reads return at most
`maxLen` bytes, are preserved by clear, fill, need, skip and by consume of at
most the available bytes; none of them changes `size`. -/
theorem bounds_invariant {σ : Type} (io : StreamAdapter σ) (hio : ReadBounded io)
    (b : DecoderBuffer) (hv : b.Valid) (is : InputStream σ) (size min_size nbytes : Nat) :
    ((decoder_buffer_new size).Valid ∧ (decoder_buffer_new size).size = size) ∧
    ((decoder_buffer_clear b).Valid ∧ (decoder_buffer_clear b).size = b.size) ∧
    ((decoder_buffer_fill io b is).2.1.Valid ∧
      (decoder_buffer_fill io b is).2.1.size = b.size) ∧
    ((decoder_buffer_need io b is min_size).2.1.Valid ∧
      (decoder_buffer_need io b is min_size).2.1.size = b.size) ∧
    ((decoder_buffer_skip io b is nbytes).2.1.Valid ∧
      (decoder_buffer_skip io b is nbytes).2.1.size = b.size) ∧
    (nbytes ≤ decoder_buffer_available b →
      (decoder_buffer_consume b nbytes).Valid ∧
      (decoder_buffer_consume b nbytes).size = b.size) := by
  obtain ⟨h1, h2, h3⟩ := hv
  have hclear : (decoder_buffer_clear b).Valid :=
    ⟨Nat.le_refl 0, Nat.zero_le _, h3⟩
  have hcons : nbytes ≤ decoder_buffer_available b → (decoder_buffer_consume b nbytes).Valid := by
    intro hn
    unfold decoder_buffer_available at hn
    exact ⟨by show b.consumed + nbytes ≤ b.length; omega, h2, h3⟩
  refine ⟨⟨⟨Nat.le_refl 0, Nat.zero_le _, ?_⟩, rfl⟩, ⟨hclear, rfl⟩,
    ⟨fill_valid io b is ⟨h1, h2, h3⟩ (hio _ _), fill_size io b is⟩,
    ⟨need_valid io hio b is min_size ⟨h1, h2, h3⟩, need_size io b is min_size⟩, ?_,
    fun hn => ⟨hcons hn, rfl⟩⟩
  · simp [decoder_buffer_new]
  · simp only [decoder_buffer_skip]
    split_ifs with hn
    · exact ⟨hcons hn, rfl⟩
    · exact ⟨hclear, rfl⟩

theorem bounds_invariant_witness :
    ReadBounded chunkAdapter ∧
    (DecoderBuffer.mk 8 5 3 [1, 2, 3, 4, 5, 0, 0, 0]).Valid ∧
    (decoder_buffer_fill chunkAdapter (DecoderBuffer.mk 8 5 3 [1, 2, 3, 4, 5, 0, 0, 0])
        (chunkStream [[6, 7], [8]])).2.1.Valid ∧
    (decoder_buffer_need chunkAdapter (DecoderBuffer.mk 8 5 3 [1, 2, 3, 4, 5, 0, 0, 0])
        (chunkStream [[6, 7], [8]]) 5).2.1.Valid ∧
    (decoder_buffer_skip chunkAdapter (DecoderBuffer.mk 8 5 3 [1, 2, 3, 4, 5, 0, 0, 0])
        (chunkStream [[6, 7], [8]]) 3).2.1.Valid ∧
    (decoder_buffer_consume (DecoderBuffer.mk 8 5 3 [1, 2, 3, 4, 5, 0, 0, 0]) 2).Valid :=
  ⟨chunk_read_bounded, by decide,
   (bounds_invariant chunkAdapter chunk_read_bounded
      (DecoderBuffer.mk 8 5 3 [1, 2, 3, 4, 5, 0, 0, 0]) (by decide)
      (chunkStream [[6, 7], [8]]) 8 5 3).2.2.1.1,
   (bounds_invariant chunkAdapter chunk_read_bounded
      (DecoderBuffer.mk 8 5 3 [1, 2, 3, 4, 5, 0, 0, 0]) (by decide)
      (chunkStream [[6, 7], [8]]) 8 5 3).2.2.2.1.1,
   (bounds_invariant chunkAdapter chunk_read_bounded
      (DecoderBuffer.mk 8 5 3 [1, 2, 3, 4, 5, 0, 0, 0]) (by decide)
      (chunkStream [[6, 7], [8]]) 8 5 3).2.2.2.2.1.1,
   ((bounds_invariant chunkAdapter chunk_read_bounded
      (DecoderBuffer.mk 8 5 3 [1, 2, 3, 4, 5, 0, 0, 0]) (by decide)
      (chunkStream [[6, 7], [8]]) 8 5 2).2.2.2.2.2 (by decide)).1⟩

/-! ## `decoder_buffer_skip` -/

/-- C4: `decoder_buffer_skip` of at most the available bytes returns success,
is the state change of `decoder_buffer_consume`, hands the stream back as it
was (same state, no call added to its trace), and lowers the number of
available bytes by exactly `nbytes`. -/
theorem skip_within_available {σ : Type} (io : StreamAdapter σ) (b : DecoderBuffer)
    (is : InputStream σ) (nbytes : Nat) (h : nbytes ≤ decoder_buffer_available b) :
    decoder_buffer_skip io b is nbytes = (true, decoder_buffer_consume b nbytes, is) ∧
    (decoder_buffer_skip io b is nbytes).2.2.calls = is.calls ∧
    decoder_buffer_available (decoder_buffer_skip io b is nbytes).2.1 + nbytes
      = decoder_buffer_available b := by
  have he : decoder_buffer_skip io b is nbytes
      = (true, decoder_buffer_consume b nbytes, is) := by
    simp only [decoder_buffer_skip]
    rw [if_pos h]
  rw [he]
  refine ⟨rfl, rfl, ?_⟩
  simp only [decoder_buffer_available, decoder_buffer_consume] at h ⊢
  omega

theorem skip_within_available_witness :
    2 ≤ decoder_buffer_available (DecoderBuffer.mk 8 5 1 [1, 2, 3, 4, 5, 0, 0, 0]) ∧
    (decoder_buffer_skip chunkAdapter (DecoderBuffer.mk 8 5 1 [1, 2, 3, 4, 5, 0, 0, 0])
        (chunkStream [[6, 7]]) 2).2.2.calls = [] ∧
    decoder_buffer_available
        (decoder_buffer_skip chunkAdapter (DecoderBuffer.mk 8 5 1 [1, 2, 3, 4, 5, 0, 0, 0])
          (chunkStream [[6, 7]]) 2).2.1 + 2 = 4 :=
  ⟨by decide,
   (skip_within_available chunkAdapter (DecoderBuffer.mk 8 5 1 [1, 2, 3, 4, 5, 0, 0, 0])
      (chunkStream [[6, 7]]) 2 (by decide)).2⟩

/-- C5: `decoder_buffer_skip` of more than the available bytes leaves the
buffer cleared (`length = consumed = 0`), makes exactly one call on the
stream, `decoder_skip` for `nbytes` minus the bytes that were available, and
returns what that call returns. -/
theorem skip_beyond_available {σ : Type} (io : StreamAdapter σ) (b : DecoderBuffer)
    (is : InputStream σ) (nbytes : Nat) (h : decoder_buffer_available b < nbytes) :
    (decoder_buffer_skip io b is nbytes).1
      = (io.skip is.state (nbytes - decoder_buffer_available b)).1 ∧
    (decoder_buffer_skip io b is nbytes).2.1 = decoder_buffer_clear b ∧
    (decoder_buffer_skip io b is nbytes).2.1.length = 0 ∧
    (decoder_buffer_skip io b is nbytes).2.1.consumed = 0 ∧
    decoder_buffer_available (decoder_buffer_skip io b is nbytes).2.1 = 0 ∧
    (decoder_buffer_skip io b is nbytes).2.2.calls
      = is.calls ++ [StreamCall.skip (nbytes - decoder_buffer_available b)] ∧
    (decoder_buffer_skip io b is nbytes).2.2.state
      = (io.skip is.state (nbytes - decoder_buffer_available b)).2 := by
  have he : decoder_buffer_skip io b is nbytes
      = ((decoder_skip io is (nbytes - decoder_buffer_available b)).1,
         decoder_buffer_clear b,
         (decoder_skip io is (nbytes - decoder_buffer_available b)).2) := by
    simp only [decoder_buffer_skip]
    rw [if_neg (by omega)]
  rw [he]
  exact ⟨rfl, rfl, rfl, rfl, rfl, rfl, rfl⟩

theorem skip_beyond_available_witness :
    decoder_buffer_available (DecoderBuffer.mk 8 5 1 [1, 2, 3, 4, 5, 0, 0, 0]) < 7 ∧
    (decoder_buffer_skip chunkAdapter (DecoderBuffer.mk 8 5 1 [1, 2, 3, 4, 5, 0, 0, 0])
        (chunkStream [[6, 7], [8, 9]]) 7).1 = true ∧
    decoder_buffer_available
        (decoder_buffer_skip chunkAdapter (DecoderBuffer.mk 8 5 1 [1, 2, 3, 4, 5, 0, 0, 0])
          (chunkStream [[6, 7], [8, 9]]) 7).2.1 = 0 ∧
    (decoder_buffer_skip chunkAdapter (DecoderBuffer.mk 8 5 1 [1, 2, 3, 4, 5, 0, 0, 0])
        (chunkStream [[6, 7], [8, 9]]) 7).2.2.calls = [StreamCall.skip 3] :=
  ⟨by decide,
   (skip_beyond_available chunkAdapter (DecoderBuffer.mk 8 5 1 [1, 2, 3, 4, 5, 0, 0, 0])
      (chunkStream [[6, 7], [8, 9]]) 7 (by decide)).1,
   (skip_beyond_available chunkAdapter (DecoderBuffer.mk 8 5 1 [1, 2, 3, 4, 5, 0, 0, 0])
      (chunkStream [[6, 7], [8, 9]]) 7 (by decide)).2.2.2.2.1,
   (skip_beyond_available chunkAdapter (DecoderBuffer.mk 8 5 1 [1, 2, 3, 4, 5, 0, 0, 0])
      (chunkStream [[6, 7], [8, 9]]) 7 (by decide)).2.2.2.2.2.1⟩

/-! ## An exhausted source -/

theorem exhausted_read_nil {σ : Type} (io : StreamAdapter σ) (s : σ)
    (h : ExhaustedFrom io s) (maxLen : Nat) : (io.read s maxLen).1 = [] :=
  h [] maxLen

theorem exhausted_after_read {σ : Type} (io : StreamAdapter σ) (s : σ)
    (h : ExhaustedFrom io s) (maxLen : Nat) : ExhaustedFrom io (io.read s maxLen).2 :=
  fun ns m => h (maxLen :: ns) m

theorem fill_exhausted {σ : Type} (io : StreamAdapter σ) (b : DecoderBuffer)
    (is : InputStream σ) (h : ExhaustedFrom io is.state) :
    (decoder_buffer_fill io b is).1 = false ∧
      ExhaustedFrom io (decoder_buffer_fill io b is).2.2.state := by
  by_cases ha : decoder_buffer_available b < b.size
  · rw [fill_read_nil io b is ha (exhausted_read_nil io _ h _)]
    exact ⟨rfl, exhausted_after_read io _ h _⟩
  · rw [fill_full io b is (by omega)]
    exact ⟨rfl, h⟩

theorem need_exhausted {σ : Type} (io : StreamAdapter σ) (b : DecoderBuffer)
    (is : InputStream σ) (min_size : Nat) (h : ExhaustedFrom io is.state) :
    ExhaustedFrom io (decoder_buffer_need io b is min_size).2.2.state ∧
      (decoder_buffer_available b < min_size →
        (decoder_buffer_need io b is min_size).1 = ConstBuffer.null ∧
        decoder_buffer_available (decoder_buffer_need io b is min_size).2.1 < min_size) := by
  by_cases ha : decoder_buffer_available b < min_size
  · obtain ⟨hf, he⟩ := fill_exhausted io b is h
    rw [need_fill_failure io b is min_size ha hf]
    refine ⟨he, fun _ => ⟨rfl, ?_⟩⟩
    show decoder_buffer_available (compacted b) < _
    rw [compacted_available]; exact ha
  · rw [need_enough io b is min_size (by omega)]
    exact ⟨h, fun hlt => absurd hlt ha⟩

theorem need_repeated_exhausted {σ : Type} (io : StreamAdapter σ) (min_size k : Nat)
    (b : DecoderBuffer) (is : InputStream σ) (h : ExhaustedFrom io is.state)
    (ha : decoder_buffer_available b < min_size) :
    ExhaustedFrom io (needRepeated io min_size k (b, is)).2.state ∧
      decoder_buffer_available (needRepeated io min_size k (b, is)).1 < min_size := by
  induction k generalizing b is with
  | zero => exact ⟨h, ha⟩
  | succ k ih =>
    obtain ⟨h1, h2⟩ := need_exhausted io b is min_size h
    exact ih _ _ h1 (h2 ha).2

/-- C6 (failure is stable under retry): if `decoder_buffer_need` has returned
the null buffer and the source is exhausted (every read from then on returns
0 bytes; this holds in particular when it was exhausted before the call),
then each later call with the same `min_size`, after any number `k` of such
calls, returns the null buffer as well. -/
theorem need_failure_idempotent {σ : Type} (io : StreamAdapter σ) (b : DecoderBuffer)
    (is : InputStream σ) (min_size : Nat)
    (hex : ExhaustedFrom io is.state ∨
      ExhaustedFrom io (decoder_buffer_need io b is min_size).2.2.state)
    (hf : (decoder_buffer_need io b is min_size).1.IsNull = true) (k : Nat) :
    (decoder_buffer_need io
        (needRepeated io min_size k (decoder_buffer_need io b is min_size).2).1
        (needRepeated io min_size k (decoder_buffer_need io b is min_size).2).2
        min_size).1 = ConstBuffer.null := by
  have hex1 : ExhaustedFrom io (decoder_buffer_need io b is min_size).2.2.state := by
    rcases hex with h | h
    · exact (need_exhausted io b is min_size h).1
    · exact h
  have ha : decoder_buffer_available (decoder_buffer_need io b is min_size).2.1 < min_size := by
    rcases need_outcome io b is min_size with ⟨h1, _, _⟩ | ⟨_, _, h3, _⟩
    · rw [hf] at h1; exact absurd h1 (by decide)
    · exact h3
  obtain ⟨h1, h2⟩ := need_repeated_exhausted io min_size k _ _ hex1 ha
  exact ((need_exhausted io _ _ min_size h1).2 h2).1

theorem chunk_exhausted (o : Nat) :
    ExhaustedFrom chunkAdapter { chunks := [], offset := o } := by
  intro ns maxLen
  have h : afterReads chunkAdapter { chunks := [], offset := o } ns
      = { chunks := [], offset := o } := by
    induction ns with
    | nil => rfl
    | cons n ns ih => exact ih
  rw [h]
  rfl

theorem need_failure_idempotent_witness :
    ExhaustedFrom chunkAdapter
      (decoder_buffer_need chunkAdapter (decoder_buffer_new 16)
        (chunkStream [[1, 2, 3, 4, 5]]) 10).2.2.state ∧
    (decoder_buffer_need chunkAdapter (decoder_buffer_new 16)
        (chunkStream [[1, 2, 3, 4, 5]]) 10).1.IsNull = true ∧
    (decoder_buffer_need chunkAdapter
        (needRepeated chunkAdapter 10 3
          (decoder_buffer_need chunkAdapter (decoder_buffer_new 16)
            (chunkStream [[1, 2, 3, 4, 5]]) 10).2).1
        (needRepeated chunkAdapter 10 3
          (decoder_buffer_need chunkAdapter (decoder_buffer_new 16)
            (chunkStream [[1, 2, 3, 4, 5]]) 10).2).2
        10).1 = ConstBuffer.null :=
  have he : ExhaustedFrom chunkAdapter
      (decoder_buffer_need chunkAdapter (decoder_buffer_new 16)
        (chunkStream [[1, 2, 3, 4, 5]]) 10).2.2.state := by
    rw [need_chunk5_eval]; exact chunk_exhausted 5
  have hn : (decoder_buffer_need chunkAdapter (decoder_buffer_new 16)
      (chunkStream [[1, 2, 3, 4, 5]]) 10).1.IsNull = true := by
    rw [need_chunk5_eval]; rfl
  ⟨he, hn,
   need_failure_idempotent chunkAdapter (decoder_buffer_new 16)
     (chunkStream [[1, 2, 3, 4, 5]]) 10 (Or.inr he) hn 3⟩

/-! ## A run over a source of 16 bytes -/

/-- C7 (end-to-end scenario): capacity 16, a source of 16 bytes
`a0 .. a15` handed out in chunks of 5, 5, 5 and 1 bytes and then nothing.
The first fill of a new buffer exposes `a0 .. a4`; after consuming 3 bytes
the second fill leaves 7 bytes available, `a3 .. a9`, in a view that starts
at storage index 0; consuming what is available and filling again delivers
`a10 .. a14` and then `a15`, so that the bytes consumed are the 16 source
bytes in order; the fill after that returns failure. -/
theorem end_to_end_scenario
    (a0 a1 a2 a3 a4 a5 a6 a7 a8 a9 a10 a11 a12 a13 a14 a15 : Byte) :
    let is0 := chunkStream
      [[a0, a1, a2, a3, a4], [a5, a6, a7, a8, a9], [a10, a11, a12, a13, a14], [a15]]
    let f1 := decoder_buffer_fill chunkAdapter (decoder_buffer_new 16) is0
    let f2 := decoder_buffer_fill chunkAdapter (decoder_buffer_consume f1.2.1 3) f1.2.2
    let f3 := decoder_buffer_fill chunkAdapter (decoder_buffer_consume f2.2.1 7) f2.2.2
    let f4 := decoder_buffer_fill chunkAdapter (decoder_buffer_consume f3.2.1 5) f3.2.2
    let f5 := decoder_buffer_fill chunkAdapter (decoder_buffer_consume f4.2.1 1) f4.2.2
    (f1.1 = true ∧ f1.2.1.unread = [a0, a1, a2, a3, a4]) ∧
    (f2.1 = true ∧ decoder_buffer_available f2.2.1 = 7 ∧
      decoder_buffer_read f2.2.1 = { data := some 0, size := 7 } ∧
      f2.2.1.unread = [a3, a4, a5, a6, a7, a8, a9]) ∧
    (f3.1 = true ∧ f3.2.1.unread = [a10, a11, a12, a13, a14]) ∧
    (f4.1 = true ∧ f4.2.1.unread = [a15]) ∧
    f1.2.1.unread.take 3 ++ f2.2.1.unread.take 7 ++ f3.2.1.unread.take 5
        ++ f4.2.1.unread.take 1
      = [a0, a1, a2, a3, a4, a5, a6, a7, a8, a9, a10, a11, a12, a13, a14, a15] ∧
    (f5.1 = false ∧ decoder_buffer_available f5.2.1 = 0 ∧
      f5.2.2.calls = [StreamCall.read 16, StreamCall.read 14, StreamCall.read 16,
        StreamCall.read 16, StreamCall.read 16]) := by
  intro is0 f1 f2 f3 f4 f5
  have h1 : f1 = (true,
      { size := 16, length := 5, consumed := 0,
        data := [a0, a1, a2, a3, a4, 0, 0, 0, 0, 0, 0, 0, 0, 0, 0, 0] },
      { state := { chunks := [[a5, a6, a7, a8, a9], [a10, a11, a12, a13, a14], [a15]],
                   offset := 5 },
        calls := [StreamCall.read 16] }) := rfl
  have h2 : f2 = (true,
      { size := 16, length := 7, consumed := 0,
        data := [a3, a4, a5, a6, a7, a8, a9, 0, 0, 0, 0, 0, 0, 0, 0, 0] },
      { state := { chunks := [[a10, a11, a12, a13, a14], [a15]], offset := 10 },
        calls := [StreamCall.read 16, StreamCall.read 14] }) := by
    show decoder_buffer_fill chunkAdapter (decoder_buffer_consume f1.2.1 3) f1.2.2 = _
    rw [h1]; rfl
  have h3 : f3 = (true,
      { size := 16, length := 5, consumed := 0,
        data := [a10, a11, a12, a13, a14, a8, a9, 0, 0, 0, 0, 0, 0, 0, 0, 0] },
      { state := { chunks := [[a15]], offset := 15 },
        calls := [StreamCall.read 16, StreamCall.read 14, StreamCall.read 16] }) := by
    show decoder_buffer_fill chunkAdapter (decoder_buffer_consume f2.2.1 7) f2.2.2 = _
    rw [h2]; rfl
  have h4 : f4 = (true,
      { size := 16, length := 1, consumed := 0,
        data := [a15, a11, a12, a13, a14, a8, a9, 0, 0, 0, 0, 0, 0, 0, 0, 0] },
      { state := { chunks := [], offset := 16 },
        calls := [StreamCall.read 16, StreamCall.read 14, StreamCall.read 16,
          StreamCall.read 16] }) := by
    show decoder_buffer_fill chunkAdapter (decoder_buffer_consume f3.2.1 5) f3.2.2 = _
    rw [h3]; rfl
  have h5 : f5 = (false,
      { size := 16, length := 0, consumed := 0,
        data := [a15, a11, a12, a13, a14, a8, a9, 0, 0, 0, 0, 0, 0, 0, 0, 0] },
      { state := { chunks := [], offset := 16 },
        calls := [StreamCall.read 16, StreamCall.read 14, StreamCall.read 16,
          StreamCall.read 16, StreamCall.read 16] }) := by
    show decoder_buffer_fill chunkAdapter (decoder_buffer_consume f4.2.1 1) f4.2.2 = _
    rw [h4]; rfl
  rw [h1, h2, h3, h4, h5]
  exact ⟨⟨rfl, rfl⟩, ⟨rfl, rfl, rfl, rfl⟩, ⟨rfl, rfl⟩, ⟨rfl, rfl⟩, rfl, ⟨rfl, rfl, rfl⟩⟩

/-! ## Results of `decoder_buffer_fill` and failed refills -/

/-- C8 (result of `decoder_buffer_fill`) for a buffer within its bounds.
The buffer is first compacted when `consumed > 0`: the unread bytes then
start at index 0 and `length` is their number.  If that length equals `size`
the call returns failure and the stream is handed back untouched.  Otherwise
exactly one call is made on the stream, a read of at most `size - length`
bytes; with 0 bytes read the call returns failure and the buffer is the
compacted one, else it returns success, the bytes are stored at index
`length` and `length` grows by their number.  Hence the call succeeds iff
fewer than `size` bytes were available and the read returned a non-zero
count. -/
theorem fill_result {σ : Type} (io : StreamAdapter σ) (b : DecoderBuffer)
    (is : InputStream σ) (hv : b.Valid) :
    ((0 < b.consumed → compacted b = decoder_buffer_shift b) ∧
      (compacted b).consumed = 0 ∧
      (compacted b).length = b.length - b.consumed ∧
      (compacted b).size = b.size ∧
      (compacted b).unread = b.unread) ∧
    ((compacted b).length = b.size →
      decoder_buffer_fill io b is = (false, compacted b, is)) ∧
    ((compacted b).length ≠ b.size →
      (decoder_buffer_fill io b is).2.2.calls
        = is.calls ++ [StreamCall.read (b.size - (compacted b).length)] ∧
      (decoder_buffer_fill io b is).2.2.state
        = (io.read is.state (b.size - (compacted b).length)).2 ∧
      ((io.read is.state (b.size - (compacted b).length)).1.length = 0 →
        (decoder_buffer_fill io b is).1 = false ∧
        (decoder_buffer_fill io b is).2.1 = compacted b) ∧
      ((io.read is.state (b.size - (compacted b).length)).1.length ≠ 0 →
        (decoder_buffer_fill io b is).1 = true ∧
        (decoder_buffer_fill io b is).2.1.length
          = (compacted b).length
            + (io.read is.state (b.size - (compacted b).length)).1.length ∧
        (decoder_buffer_fill io b is).2.1.consumed = 0 ∧
        (decoder_buffer_fill io b is).2.1.data
          = (compacted b).data.take (compacted b).length
            ++ (io.read is.state (b.size - (compacted b).length)).1
            ++ (compacted b).data.drop ((compacted b).length
                + (io.read is.state (b.size - (compacted b).length)).1.length))) ∧
    ((decoder_buffer_fill io b is).1 = true ↔
      decoder_buffer_available b < b.size ∧
      (io.read is.state (b.size - decoder_buffer_available b)).1.length ≠ 0) := by
  have hl : b.length ≤ b.data.length := by
    obtain ⟨_, h2, h3⟩ := hv; omega
  have hcl := compacted_length b
  have hcv := compacted_valid b hv
  have hsz := compacted_size b
  refine ⟨⟨?_, compacted_consumed b, hcl, hsz, compacted_unread b hl⟩, ?_, ?_, ?_⟩
  · intro hc; unfold compacted; rw [if_pos hc]
  · intro hfull
    exact fill_full io b is (by rw [← hcl, hfull])
  · intro hne
    have ha : decoder_buffer_available b < b.size := by
      obtain ⟨_, h2, _⟩ := hcv
      rw [hcl, hsz] at h2; rw [hcl] at hne; omega
    rw [hcl]
    by_cases hr : (io.read is.state (b.size - decoder_buffer_available b)).1 = []
    · rw [fill_read_nil io b is ha hr]
      refine ⟨rfl, rfl, fun _ => ⟨rfl, rfl⟩, fun hk => ?_⟩
      rw [hr] at hk; exact absurd rfl hk
    · rw [fill_read_cons io b is ha hr]
      refine ⟨rfl, rfl, fun hk => ?_, fun _ => ⟨rfl, rfl, compacted_consumed b, rfl⟩⟩
      exact absurd (List.length_eq_zero.1 hk) hr
  · rw [fill_success_iff]
    simp only [ne_eq, List.length_eq_zero]

theorem fill_result_witness :
    (DecoderBuffer.mk 8 5 3 [1, 2, 3, 4, 5, 0, 0, 0]).Valid ∧
    ((decoder_buffer_fill chunkAdapter (DecoderBuffer.mk 8 5 3 [1, 2, 3, 4, 5, 0, 0, 0])
        (chunkStream [[6, 7]])).1 = true ↔
      decoder_buffer_available (DecoderBuffer.mk 8 5 3 [1, 2, 3, 4, 5, 0, 0, 0]) < 8 ∧
      (chunkAdapter.read (chunkStream [[6, 7]]).state
        (8 - decoder_buffer_available
          (DecoderBuffer.mk 8 5 3 [1, 2, 3, 4, 5, 0, 0, 0]))).1.length ≠ 0) :=
  ⟨by decide,
   (fill_result chunkAdapter (DecoderBuffer.mk 8 5 3 [1, 2, 3, 4, 5, 0, 0, 0])
      (chunkStream [[6, 7]]) (by decide)).2.2.2⟩

theorem fill_stored {σ : Type} (io : StreamAdapter σ) (b : DecoderBuffer) (is : InputStream σ)
    (hl : b.length ≤ b.data.length) :
    (decoder_buffer_fill io b is).2.1.length ≤ (decoder_buffer_fill io b is).2.1.data.length := by
  have hd := compacted_data_length b hl
  have hcl := compacted_length b
  have hc : (compacted b).length ≤ (compacted b).data.length := by
    rw [hd, hcl]; unfold decoder_buffer_available; omega
  by_cases h : decoder_buffer_available b < b.size
  · by_cases hr : (io.read is.state (b.size - decoder_buffer_available b)).1 = []
    · rw [fill_read_nil io b is h hr]; exact hc
    · rw [fill_read_cons io b is h hr]
      simp only [List.length_append, List.length_take, List.length_drop]
      omega
  · rw [fill_full io b is (by omega)]; exact hc

theorem fill_extends_unread {σ : Type} (io : StreamAdapter σ) (b : DecoderBuffer)
    (is : InputStream σ) (hl : b.length ≤ b.data.length) :
    b.unread <+: (decoder_buffer_fill io b is).2.1.unread := by
  cases hs : (decoder_buffer_fill io b is).1 with
  | true => rw [fill_success_unread io b is hl hs]; exact List.prefix_append _ _
  | false => rw [(fill_failure_unread io b is hl hs).2]

theorem need_extends_unread {σ : Type} (io : StreamAdapter σ) (b : DecoderBuffer)
    (is : InputStream σ) (min_size : Nat) (hl : b.length ≤ b.data.length) :
    b.unread <+: (decoder_buffer_need io b is min_size).2.1.unread := by
  induction b, is, min_size using decoder_buffer_need.induct io with
  | case1 b is min_size h =>
    rw [need_enough io b is min_size h]
  | case2 b is min_size h hs ih =>
    rw [need_fill_success io b is min_size (by omega) hs]
    exact (fill_extends_unread io b is hl).trans (ih (fill_stored io b is hl))
  | case3 b is min_size h hs =>
    rw [need_fill_failure io b is min_size (by omega) (by simpa using hs)]
    show _ <+: (compacted b).unread
    rw [compacted_unread b hl]

/-- C9 (buffered bytes survive a failed refill), for a buffer within its
bounds: when `decoder_buffer_fill` returns failure, the view read afterwards
has the content of the view read before (same bytes, same number of them);
when `decoder_buffer_need` returns the null buffer, the bytes readable before
the call are a prefix of the bytes readable after it. -/
theorem failed_refill_keeps_unread {σ : Type} (io : StreamAdapter σ) (b : DecoderBuffer)
    (is : InputStream σ) (min_size : Nat) (hv : b.Valid) :
    ((decoder_buffer_fill io b is).1 = false →
      (decoder_buffer_fill io b is).2.1.unread = b.unread ∧
      (decoder_buffer_read (decoder_buffer_fill io b is).2.1).size
        = (decoder_buffer_read b).size) ∧
    ((decoder_buffer_need io b is min_size).1.IsNull = true →
      b.unread <+: (decoder_buffer_need io b is min_size).2.1.unread) := by
  have hl : b.length ≤ b.data.length := by
    obtain ⟨_, h2, h3⟩ := hv; omega
  refine ⟨fun hs => ⟨(fill_failure_unread io b is hl hs).2, ?_⟩,
    fun _ => need_extends_unread io b is min_size hl⟩
  rw [fill_failure_buffer io b is hs]
  exact compacted_available b

theorem failed_refill_keeps_unread_witness :
    (DecoderBuffer.mk 8 5 3 [1, 2, 3, 4, 5, 0, 0, 0]).Valid ∧
    (decoder_buffer_fill chunkAdapter (DecoderBuffer.mk 8 5 3 [1, 2, 3, 4, 5, 0, 0, 0])
        (chunkStream [])).1 = false ∧
    (decoder_buffer_fill chunkAdapter (DecoderBuffer.mk 8 5 3 [1, 2, 3, 4, 5, 0, 0, 0])
        (chunkStream [])).2.1.unread = [4, 5] ∧
    (decoder_buffer_need chunkAdapter (DecoderBuffer.mk 8 5 3 [1, 2, 3, 4, 5, 0, 0, 0])
        (chunkStream []) 4).1.IsNull = true ∧
    [4, 5] <+: (decoder_buffer_need chunkAdapter
        (DecoderBuffer.mk 8 5 3 [1, 2, 3, 4, 5, 0, 0, 0]) (chunkStream []) 4).2.1.unread :=
  have hn : (decoder_buffer_need chunkAdapter (DecoderBuffer.mk 8 5 3 [1, 2, 3, 4, 5, 0, 0, 0])
      (chunkStream []) 4).1.IsNull = true := by
    rw [need_fill_failure _ _ _ _ (by decide) (by decide)]; rfl
  ⟨by decide, by decide,
   ((failed_refill_keeps_unread chunkAdapter (DecoderBuffer.mk 8 5 3 [1, 2, 3, 4, 5, 0, 0, 0])
      (chunkStream []) 4 (by decide)).1 (by decide)).1,
   hn,
   (failed_refill_keeps_unread chunkAdapter (DecoderBuffer.mk 8 5 3 [1, 2, 3, 4, 5, 0, 0, 0])
      (chunkStream []) 4 (by decide)).2 hn⟩

/-! ## `decoder_buffer_consume` -/

/-- C10: `decoder_buffer_consume` of at most the available bytes adds
`nbytes` to `consumed` and changes neither `length`, `size` nor the stored
bytes (it takes no stream and moves nothing); the view read afterwards is
the view from before without its first `nbytes` bytes. -/
theorem consume_advances (b : DecoderBuffer) (nbytes : Nat)
    (h : nbytes ≤ decoder_buffer_available b) :
    (decoder_buffer_consume b nbytes).consumed = b.consumed + nbytes ∧
    (decoder_buffer_consume b nbytes).length = b.length ∧
    (decoder_buffer_consume b nbytes).size = b.size ∧
    (decoder_buffer_consume b nbytes).data = b.data ∧
    decoder_buffer_read (decoder_buffer_consume b nbytes)
      = { data := some (b.consumed + nbytes),
          size := decoder_buffer_available b - nbytes } ∧
    decoder_buffer_available (decoder_buffer_consume b nbytes) + nbytes
      = decoder_buffer_available b ∧
    (decoder_buffer_consume b nbytes).unread = b.unread.drop nbytes := by
  refine ⟨rfl, rfl, rfl, rfl, ?_, ?_, ?_⟩
  · simp only [decoder_buffer_read, decoder_buffer_head, decoder_buffer_available,
      decoder_buffer_consume, Nat.sub_add_eq]
  · simp only [decoder_buffer_available, decoder_buffer_consume] at h ⊢
    omega
  · simp only [unread_eq, decoder_buffer_consume, List.drop_take, List.drop_drop,
      Nat.sub_add_eq]

theorem consume_advances_witness :
    3 ≤ decoder_buffer_available (DecoderBuffer.mk 8 5 1 [1, 2, 3, 4, 5, 0, 0, 0]) ∧
    (decoder_buffer_consume (DecoderBuffer.mk 8 5 1 [1, 2, 3, 4, 5, 0, 0, 0]) 3).unread
      = [5] :=
  ⟨by decide,
   (consume_advances (DecoderBuffer.mk 8 5 1 [1, 2, 3, 4, 5, 0, 0, 0]) 3 (by decide)).2.2.2.2.2.2⟩

/-! ## The skip policy of `DsdLib.cxx` -/

theorem dsdlib_skip_zero {σ : Type} (io : StreamAdapter σ) (is : InputStream σ) :
    dsdlib_skip io is 0 = (true, is) := by
  simp only [dsdlib_skip, if_true]

theorem dsdlib_skip_seekable {σ : Type} (io : StreamAdapter σ) (is : InputStream σ)
    (delta : Nat) (hd : delta ≠ 0) (hs : io.isSeekable is.state = true) :
    dsdlib_skip io is delta
      = InputStream.Seek io is ((io.getOffset is.state + delta) % 2 ^ 64) := by
  simp only [dsdlib_skip, if_neg hd, if_pos hs]

theorem dsdlib_skip_too_far {σ : Type} (io : StreamAdapter σ) (is : InputStream σ)
    (delta : Nat) (hs : io.isSeekable is.state = false) (hd : 1024 * 1024 < delta) :
    dsdlib_skip io is delta = (false, is) := by
  have h0 : delta ≠ 0 := by omega
  simp only [dsdlib_skip, if_neg h0, hs, Bool.false_eq_true, if_false, gt_iff_lt, if_pos hd]

theorem dsdlib_skip_discard {σ : Type} (io : StreamAdapter σ) (is : InputStream σ)
    (delta : Nat) (hs : io.isSeekable is.state = false) (h0 : delta ≠ 0)
    (hd : delta ≤ 1024 * 1024) :
    dsdlib_skip io is delta = decoder_skip io is delta := by
  have hn : ¬ delta > 1024 * 1024 := by omega
  simp only [dsdlib_skip, if_neg h0, hs, Bool.false_eq_true, if_false, if_neg hn]

/-- C11: `dsdlib_skip_to`.  On a seekable stream it makes one call,
`Seek(offset)`, and returns its result.  On a stream that is not seekable it
returns false and leaves the stream untouched when the current offset is
beyond `offset`, and otherwise is `dsdlib_skip` of `offset` minus the current
offset, in result and in effect on the stream. -/
theorem skip_to_cases {σ : Type} (io : StreamAdapter σ) (is : InputStream σ) (offset : Nat) :
    (io.isSeekable is.state = true →
      (dsdlib_skip_to io is offset).1 = (io.seek is.state offset).1 ∧
      (dsdlib_skip_to io is offset).2.state = (io.seek is.state offset).2 ∧
      (dsdlib_skip_to io is offset).2.calls = is.calls ++ [StreamCall.seek offset]) ∧
    (io.isSeekable is.state = false → offset < io.getOffset is.state →
      dsdlib_skip_to io is offset = (false, is)) ∧
    (io.isSeekable is.state = false → io.getOffset is.state ≤ offset →
      dsdlib_skip_to io is offset = dsdlib_skip io is (offset - io.getOffset is.state)) := by
  refine ⟨fun hs => ?_, fun hs hlt => ?_, fun hs hle => ?_⟩
  · simp only [dsdlib_skip_to, if_pos hs]
    exact ⟨rfl, rfl, rfl⟩
  · simp only [dsdlib_skip_to, hs, Bool.false_eq_true, if_false, gt_iff_lt, if_pos hlt]
  · have hn : ¬ io.getOffset is.state > offset := by omega
    simp only [dsdlib_skip_to, hs, Bool.false_eq_true, if_false, if_neg hn]

theorem skip_to_cases_witness :
    (dsdlib_skip_to fileAdapter (fileStream [1, 2, 3, 4, 5, 6] 4) 2).1 = true ∧
    (dsdlib_skip_to fileAdapter (fileStream [1, 2, 3, 4, 5, 6] 4) 2).2.calls
      = [StreamCall.seek 2] ∧
    dsdlib_skip_to chunkAdapter
        { state := { chunks := [[5, 6]], offset := 4 }, calls := [] } 2
      = (false, { state := { chunks := [[5, 6]], offset := 4 }, calls := [] }) ∧
    dsdlib_skip_to chunkAdapter
        { state := { chunks := [[5, 6]], offset := 4 }, calls := [] } 5
      = dsdlib_skip chunkAdapter
          { state := { chunks := [[5, 6]], offset := 4 }, calls := [] } 1 :=
  ⟨((skip_to_cases fileAdapter (fileStream [1, 2, 3, 4, 5, 6] 4) 2).1 rfl).1,
   ((skip_to_cases fileAdapter (fileStream [1, 2, 3, 4, 5, 6] 4) 2).1 rfl).2.2,
   (skip_to_cases chunkAdapter
      { state := { chunks := [[5, 6]], offset := 4 }, calls := [] } 2).2.1 rfl (by decide),
   (skip_to_cases chunkAdapter
      { state := { chunks := [[5, 6]], offset := 4 }, calls := [] } 5).2.2 rfl (by decide)⟩

/-- C12: the forward-skip ceiling of `dsdlib_skip` on a stream that is not
seekable.  Beyond `1024 * 1024 = 1048576` bytes it returns false and leaves
the stream untouched; from 1 byte up to 1048576 bytes, that bound included,
it makes one call, `decoder_skip` of exactly `delta` bytes, and returns its
result. -/
theorem skip_ceiling {σ : Type} (io : StreamAdapter σ) (is : InputStream σ) (delta : Nat)
    (hs : io.isSeekable is.state = false) :
    (1048576 < delta → dsdlib_skip io is delta = (false, is)) ∧
    (1 ≤ delta → delta ≤ 1048576 →
      (dsdlib_skip io is delta).1 = (io.skip is.state delta).1 ∧
      (dsdlib_skip io is delta).2.state = (io.skip is.state delta).2 ∧
      (dsdlib_skip io is delta).2.calls = is.calls ++ [StreamCall.skip delta]) := by
  refine ⟨fun hd => dsdlib_skip_too_far io is delta hs (by omega), fun h1 hd => ?_⟩
  rw [dsdlib_skip_discard io is delta hs (by omega) (by omega)]
  exact ⟨rfl, rfl, rfl⟩

theorem skip_ceiling_witness :
    chunkAdapter.isSeekable (chunkStream [[1, 2, 3]]).state = false ∧
    dsdlib_skip chunkAdapter (chunkStream [[1, 2, 3]]) 1048577
      = (false, chunkStream [[1, 2, 3]]) ∧
    (dsdlib_skip chunkAdapter (chunkStream [[1, 2, 3]]) 1048576).2.calls
      = [StreamCall.skip 1048576] ∧
    (dsdlib_skip chunkAdapter (chunkStream [[1, 2, 3]]) 2).1 = true :=
  ⟨rfl,
   (skip_ceiling chunkAdapter (chunkStream [[1, 2, 3]]) 1048577 rfl).1 (by decide),
   ((skip_ceiling chunkAdapter (chunkStream [[1, 2, 3]]) 1048576 rfl).2
      (by decide) (by decide)).2.2,
   ((skip_ceiling chunkAdapter (chunkStream [[1, 2, 3]]) 2 rfl).2 (by decide) (by decide)).1⟩

/-- What `dsdlib_skip` computes on 0 bytes and on a seekable stream: 0 bytes
return true and hand the stream back untouched, seekable or not; for
`delta > 0` on a seekable stream one call is made, a seek, whose result is
returned, whatever the size of `delta`.  The target is the 64-bit sum of
`GetOffset()` and `delta`; it is `GetOffset() + delta`, a forward skip of
`delta` bytes, as long as that is below `2 ^ 64`. -/
theorem skip_zero_or_seek {σ : Type} (io : StreamAdapter σ) (is : InputStream σ)
    (delta : Nat) :
    dsdlib_skip io is 0 = (true, is) ∧
    (0 < delta → io.isSeekable is.state = true →
      (dsdlib_skip io is delta).1
        = (io.seek is.state ((io.getOffset is.state + delta) % 2 ^ 64)).1 ∧
      (dsdlib_skip io is delta).2.state
        = (io.seek is.state ((io.getOffset is.state + delta) % 2 ^ 64)).2 ∧
      (dsdlib_skip io is delta).2.calls
        = is.calls ++ [StreamCall.seek ((io.getOffset is.state + delta) % 2 ^ 64)]) ∧
    (0 < delta → io.isSeekable is.state = true → io.getOffset is.state + delta < 2 ^ 64 →
      (dsdlib_skip io is delta).1 = (io.seek is.state (io.getOffset is.state + delta)).1 ∧
      (dsdlib_skip io is delta).2.state
        = (io.seek is.state (io.getOffset is.state + delta)).2 ∧
      (dsdlib_skip io is delta).2.calls
        = is.calls ++ [StreamCall.seek (io.getOffset is.state + delta)]) := by
  refine ⟨dsdlib_skip_zero io is, fun hd hs => ?_, fun hd hs hlt => ?_⟩
  · rw [dsdlib_skip_seekable io is delta (by omega) hs]
    exact ⟨rfl, rfl, rfl⟩
  · rw [dsdlib_skip_seekable io is delta (by omega) hs, Nat.mod_eq_of_lt hlt]
    exact ⟨rfl, rfl, rfl⟩

theorem skip_zero_or_seek_witness :
    dsdlib_skip chunkAdapter (chunkStream [[1, 2, 3]]) 0 = (true, chunkStream [[1, 2, 3]]) ∧
    (dsdlib_skip fileAdapter (fileStream [1, 2, 3, 4, 5, 6] 1) 3).1 = true ∧
    (dsdlib_skip fileAdapter (fileStream [1, 2, 3, 4, 5, 6] 1) 3).2.calls
      = [StreamCall.seek 4] :=
  ⟨(skip_zero_or_seek chunkAdapter (chunkStream [[1, 2, 3]]) 0).1,
   ((skip_zero_or_seek fileAdapter (fileStream [1, 2, 3, 4, 5, 6] 1) 3).2.2
      (by decide) rfl (by decide)).1,
   ((skip_zero_or_seek fileAdapter (fileStream [1, 2, 3, 4, 5, 6] 1) 3).2.2
      (by decide) rfl (by decide)).2.2⟩

/-- C13 (`dsdlib_skip` on a seekable stream seeks to the current offset plus
`delta`): the code misses this when the unguarded 64-bit sum overflows.  On a
seekable stream at offset 12, `dsdlib_skip` of `2 ^ 64 - 1` bytes (the
largest `uint64_t`) makes one seek, to offset 11, one byte backwards, and
returns true, where skipping some bytes means a seek to
`12 + (2 ^ 64 - 1)`. -/
theorem skip_seek_target_wraps :
    fileAdapter.isSeekable
        (fileStream [0, 1, 2, 3, 4, 5, 6, 7, 8, 9, 10, 11, 12, 13, 14, 15] 12).state = true ∧
    (dsdlib_skip fileAdapter
        (fileStream [0, 1, 2, 3, 4, 5, 6, 7, 8, 9, 10, 11, 12, 13, 14, 15] 12)
        18446744073709551615).2.calls = [StreamCall.seek 11] ∧
    (dsdlib_skip fileAdapter
        (fileStream [0, 1, 2, 3, 4, 5, 6, 7, 8, 9, 10, 11, 12, 13, 14, 15] 12)
        18446744073709551615).1 = true ∧
    (dsdlib_skip fileAdapter
        (fileStream [0, 1, 2, 3, 4, 5, 6, 7, 8, 9, 10, 11, 12, 13, 14, 15] 12)
        18446744073709551615).2.calls
      ≠ [StreamCall.seek (12 + 18446744073709551615)] := by
  decide

theorem skip_shortfall {σ : Type} (io : StreamAdapter σ) (b : DecoderBuffer)
    (is : InputStream σ) (nbytes : Nat) (h : decoder_buffer_available b < nbytes) :
    decoder_buffer_skip io b is nbytes
      = ((decoder_skip io is (nbytes - decoder_buffer_available b)).1,
         decoder_buffer_clear b,
         (decoder_skip io is (nbytes - decoder_buffer_available b)).2) := by
  simp only [decoder_buffer_skip]
  rw [if_neg (by omega)]

/-- C14, as the code has it: for `nbytes` beyond the available bytes,
`decoder_buffer_skip` clears the buffer and passes the shortfall to
`decoder_skip` itself, not to `dsdlib_skip`: result and effect on the stream
are those of one `decoder_skip` of the shortfall, a discard of exactly that
many bytes, on seekable streams too and without a ceiling.  It is what
`dsdlib_skip` of the shortfall does when the stream is not seekable and the
shortfall is at most 1048576 bytes. -/
theorem skip_shortfall_discard {σ : Type} (io : StreamAdapter σ) (b : DecoderBuffer)
    (is : InputStream σ) (nbytes : Nat) (h : decoder_buffer_available b < nbytes) :
    (decoder_buffer_skip io b is nbytes).2.1 = decoder_buffer_clear b ∧
    ((decoder_buffer_skip io b is nbytes).1, (decoder_buffer_skip io b is nbytes).2.2)
      = decoder_skip io is (nbytes - decoder_buffer_available b) ∧
    (decoder_buffer_skip io b is nbytes).2.2.calls
      = is.calls ++ [StreamCall.skip (nbytes - decoder_buffer_available b)] ∧
    (io.isSeekable is.state = false → nbytes - decoder_buffer_available b ≤ 1048576 →
      ((decoder_buffer_skip io b is nbytes).1, (decoder_buffer_skip io b is nbytes).2.2)
        = dsdlib_skip io is (nbytes - decoder_buffer_available b)) := by
  rw [skip_shortfall io b is nbytes h]
  refine ⟨rfl, rfl, rfl, fun hs hd => ?_⟩
  rw [dsdlib_skip_discard io is _ hs (by omega) (by omega)]

theorem skip_shortfall_discard_witness :
    decoder_buffer_available (DecoderBuffer.mk 8 5 1 [1, 2, 3, 4, 5, 0, 0, 0]) < 7 ∧
    (decoder_buffer_skip fileAdapter (DecoderBuffer.mk 8 5 1 [1, 2, 3, 4, 5, 0, 0, 0])
        (fileStream [1, 2, 3, 4, 5, 6, 7, 8, 9] 5) 7).2.2.calls = [StreamCall.skip 3] ∧
    ((decoder_buffer_skip chunkAdapter (DecoderBuffer.mk 8 5 1 [1, 2, 3, 4, 5, 0, 0, 0])
        (chunkStream [[6, 7], [8, 9]]) 7).1,
     (decoder_buffer_skip chunkAdapter (DecoderBuffer.mk 8 5 1 [1, 2, 3, 4, 5, 0, 0, 0])
        (chunkStream [[6, 7], [8, 9]]) 7).2.2)
      = dsdlib_skip chunkAdapter (chunkStream [[6, 7], [8, 9]]) 3 :=
  ⟨by decide,
   (skip_shortfall_discard fileAdapter (DecoderBuffer.mk 8 5 1 [1, 2, 3, 4, 5, 0, 0, 0])
      (fileStream [1, 2, 3, 4, 5, 6, 7, 8, 9] 5) 7 (by decide)).2.2.1,
   (skip_shortfall_discard chunkAdapter (DecoderBuffer.mk 8 5 1 [1, 2, 3, 4, 5, 0, 0, 0])
      (chunkStream [[6, 7], [8, 9]]) 7 (by decide)).2.2.2 rfl (by decide)⟩

/-- C14 as stated fails.  On a seekable stream, `decoder_buffer_skip` of 7
bytes with 4 available calls `decoder_skip` for 3 bytes where `dsdlib_skip`
seeks to offset 8; on a stream that is not seekable, with an empty buffer, it
calls `decoder_skip` for 1048577 bytes where `dsdlib_skip` returns false
without a call. -/
theorem skip_shortfall_bypasses_policy :
    ((decoder_buffer_skip fileAdapter (DecoderBuffer.mk 8 5 1 [1, 2, 3, 4, 5, 0, 0, 0])
        (fileStream [1, 2, 3, 4, 5, 6, 7, 8, 9] 5) 7).2.2.calls = [StreamCall.skip 3] ∧
     (dsdlib_skip fileAdapter (fileStream [1, 2, 3, 4, 5, 6, 7, 8, 9] 5) 3).2.calls
       = [StreamCall.seek 8]) ∧
    ((decoder_buffer_skip chunkAdapter (decoder_buffer_new 16)
        (chunkStream [[1, 2, 3]]) 1048577).2.2.calls = [StreamCall.skip 1048577] ∧
     dsdlib_skip chunkAdapter (chunkStream [[1, 2, 3]]) 1048577
       = (false, chunkStream [[1, 2, 3]])) ∧
    (decoder_buffer_skip fileAdapter (DecoderBuffer.mk 8 5 1 [1, 2, 3, 4, 5, 0, 0, 0])
        (fileStream [1, 2, 3, 4, 5, 6, 7, 8, 9] 5) 7).2.2
      ≠ (dsdlib_skip fileAdapter (fileStream [1, 2, 3, 4, 5, 6, 7, 8, 9] 5) 3).2 ∧
    (decoder_buffer_skip chunkAdapter (decoder_buffer_new 16)
        (chunkStream [[1, 2, 3]]) 1048577).2.2
      ≠ (dsdlib_skip chunkAdapter (chunkStream [[1, 2, 3]]) 1048577).2 := by
  decide

/-! ## The tag extractor of `DsdLib.cxx` -/

theorem tag_zero {σ τ φ : Type} (io : StreamAdapter σ) (tp : TagScanner τ φ)
    (is : InputStream σ) : dsdlib_tag_id3 io tp is 0 = (is, []) := by
  simp only [dsdlib_tag_id3, if_true]

theorem tag_skip_failed {σ τ φ : Type} (io : StreamAdapter σ) (tp : TagScanner τ φ)
    (is : InputStream σ) (tagoffset : Nat) (h0 : tagoffset ≠ 0)
    (hf : (dsdlib_skip_to io is tagoffset).1 = false) :
    dsdlib_tag_id3 io tp is tagoffset = ((dsdlib_skip_to io is tagoffset).2, []) := by
  simp only [dsdlib_tag_id3, if_neg h0, if_pos hf]

theorem tag_no_read {σ τ φ : Type} (io : StreamAdapter σ) (tp : TagScanner τ φ)
    (is : InputStream σ) (tagoffset : Nat) (h0 : tagoffset ≠ 0)
    (hr : io.getSize (dsdlib_skip_to io is tagoffset).2.state
            ≤ io.getOffset (dsdlib_skip_to io is tagoffset).2.state ∨
          4096 < io.getSize (dsdlib_skip_to io is tagoffset).2.state
            - io.getOffset (dsdlib_skip_to io is tagoffset).2.state) :
    dsdlib_tag_id3 io tp is tagoffset = ((dsdlib_skip_to io is tagoffset).2, []) := by
  cases hs : (dsdlib_skip_to io is tagoffset).1 with
  | false => exact tag_skip_failed io tp is tagoffset h0 hs
  | true =>
    simp only [dsdlib_tag_id3, if_neg h0, hs, Bool.true_eq_false, if_false]
    split_ifs with h1 h2
    · rfl
    · rfl
    · exfalso
      simp only [ge_iff_le, not_le, not_or, gt_iff_lt, not_lt] at h1 h2
      omega

theorem tag_read {σ τ φ : Type} (io : StreamAdapter σ) (tp : TagScanner τ φ)
    (is : InputStream σ) (tagoffset : Nat) (h0 : tagoffset ≠ 0)
    (hs : (dsdlib_skip_to io is tagoffset).1 = true)
    (hlt : io.getOffset (dsdlib_skip_to io is tagoffset).2.state
            < io.getSize (dsdlib_skip_to io is tagoffset).2.state)
    (hle : io.getSize (dsdlib_skip_to io is tagoffset).2.state
            - io.getOffset (dsdlib_skip_to io is tagoffset).2.state ≤ 4096) :
    (dsdlib_tag_id3 io tp is tagoffset).1
      = (decoder_read_full io (dsdlib_skip_to io is tagoffset).2
          (io.getSize (dsdlib_skip_to io is tagoffset).2.state
            - io.getOffset (dsdlib_skip_to io is tagoffset).2.state)).2 := by
  have h1 : ¬ io.getOffset (dsdlib_skip_to io is tagoffset).2.state
      ≥ io.getSize (dsdlib_skip_to io is tagoffset).2.state := by omega
  have h2 : ¬ (io.getSize (dsdlib_skip_to io is tagoffset).2.state
        - io.getOffset (dsdlib_skip_to io is tagoffset).2.state = 0 ∨
      io.getSize (dsdlib_skip_to io is tagoffset).2.state
        - io.getOffset (dsdlib_skip_to io is tagoffset).2.state > 4096) := by omega
  simp only [dsdlib_tag_id3, if_neg h0, hs, Bool.true_eq_false, if_false, if_neg h1,
    if_neg h2]
  split
  · rfl
  · split <;> rfl

theorem skip_adds_no_read {σ : Type} (io : StreamAdapter σ) (is : InputStream σ)
    (delta n : Nat) (h : StreamCall.readFull n ∈ (dsdlib_skip io is delta).2.calls) :
    StreamCall.readFull n ∈ is.calls := by
  simp only [dsdlib_skip, InputStream.Seek, decoder_skip] at h
  split_ifs at h <;> simpa using h

theorem skip_to_adds_no_read {σ : Type} (io : StreamAdapter σ) (is : InputStream σ)
    (offset n : Nat) (h : StreamCall.readFull n ∈ (dsdlib_skip_to io is offset).2.calls) :
    StreamCall.readFull n ∈ is.calls := by
  simp only [dsdlib_skip_to, InputStream.Seek] at h
  split_ifs at h
  · simpa using h
  · exact h
  · exact skip_adds_no_read io is _ n h

/-- C15 (tag-size ceiling of `dsdlib_tag_id3`).  Every `decoder_read_full`
call that the extractor adds to the stream asks for the size minus the offset
that the stream reports after the skip, that number lies in `1 .. 4096`, and
it is the last call made.  When the size minus that offset exceeds 4096, no
such call is added and the handler is not invoked; so it is for a tag offset
with size minus tag offset above 4096, the skip having left the stream at the
tag offset. -/
theorem tag_read_ceiling {σ τ φ : Type} (io : StreamAdapter σ) (tp : TagScanner τ φ)
    (is : InputStream σ) (tagoffset : Nat) :
    (∀ n, StreamCall.readFull n ∈ (dsdlib_tag_id3 io tp is tagoffset).1.calls →
      StreamCall.readFull n ∈ is.calls ∨
      (n = io.getSize (dsdlib_skip_to io is tagoffset).2.state
            - io.getOffset (dsdlib_skip_to io is tagoffset).2.state ∧
       1 ≤ n ∧ n ≤ 4096 ∧
       (dsdlib_tag_id3 io tp is tagoffset).1.calls
         = (dsdlib_skip_to io is tagoffset).2.calls ++ [StreamCall.readFull n])) ∧
    (4096 < io.getSize (dsdlib_skip_to io is tagoffset).2.state
        - io.getOffset (dsdlib_skip_to io is tagoffset).2.state →
      (∀ n, StreamCall.readFull n ∈ (dsdlib_tag_id3 io tp is tagoffset).1.calls →
        StreamCall.readFull n ∈ is.calls) ∧
      (dsdlib_tag_id3 io tp is tagoffset).2 = []) ∧
    (((dsdlib_skip_to io is tagoffset).1 = true →
        io.getOffset (dsdlib_skip_to io is tagoffset).2.state = tagoffset) →
      4096 < io.getSize (dsdlib_skip_to io is tagoffset).2.state - tagoffset →
      (∀ n, StreamCall.readFull n ∈ (dsdlib_tag_id3 io tp is tagoffset).1.calls →
        StreamCall.readFull n ∈ is.calls) ∧
      (dsdlib_tag_id3 io tp is tagoffset).2 = []) := by
  have hbig : 4096 < io.getSize (dsdlib_skip_to io is tagoffset).2.state
        - io.getOffset (dsdlib_skip_to io is tagoffset).2.state →
      (∀ n, StreamCall.readFull n ∈ (dsdlib_tag_id3 io tp is tagoffset).1.calls →
        StreamCall.readFull n ∈ is.calls) ∧
      (dsdlib_tag_id3 io tp is tagoffset).2 = [] := by
    intro hgt
    by_cases h0 : tagoffset = 0
    · subst h0; rw [tag_zero]; exact ⟨fun n hn => hn, rfl⟩
    · rw [tag_no_read io tp is tagoffset h0 (Or.inr hgt)]
      exact ⟨fun n hn => skip_to_adds_no_read io is tagoffset n hn, rfl⟩
  refine ⟨fun n hn => ?_, hbig, fun hland hgt => ?_⟩
  · by_cases h0 : tagoffset = 0
    · subst h0; rw [tag_zero] at hn; exact Or.inl hn
    · cases hs : (dsdlib_skip_to io is tagoffset).1 with
      | false =>
        rw [tag_skip_failed io tp is tagoffset h0 hs] at hn
        exact Or.inl (skip_to_adds_no_read io is tagoffset n hn)
      | true =>
        by_cases hr : io.getSize (dsdlib_skip_to io is tagoffset).2.state
              ≤ io.getOffset (dsdlib_skip_to io is tagoffset).2.state ∨
            4096 < io.getSize (dsdlib_skip_to io is tagoffset).2.state
              - io.getOffset (dsdlib_skip_to io is tagoffset).2.state
        · rw [tag_no_read io tp is tagoffset h0 hr] at hn
          exact Or.inl (skip_to_adds_no_read io is tagoffset n hn)
        · have hst := tag_read io tp is tagoffset h0 hs (by omega) (by omega)
          rw [hst] at hn ⊢
          simp only [decoder_read_full, List.mem_append, List.mem_singleton,
            StreamCall.readFull.injEq] at hn
          rcases hn with hn | hn
          · exact Or.inl (skip_to_adds_no_read io is tagoffset n hn)
          · subst hn
            exact Or.inr ⟨rfl, by omega, by omega, rfl⟩
  · cases hs : (dsdlib_skip_to io is tagoffset).1 with
    | false =>
      by_cases h0 : tagoffset = 0
      · subst h0; rw [tag_zero]; exact ⟨fun n hn => hn, rfl⟩
      · rw [tag_skip_failed io tp is tagoffset h0 hs]
        exact ⟨fun n hn => skip_to_adds_no_read io is tagoffset n hn, rfl⟩
    | true =>
      have he := hland hs
      exact hbig (by rw [he]; exact hgt)

/-- C16: with tag offset 0, `dsdlib_tag_id3` hands the stream back as it was
(same state, no call added to its trace) and does not invoke the handler. -/
theorem tag_absent {σ τ φ : Type} (io : StreamAdapter σ) (tp : TagScanner τ φ)
    (is : InputStream σ) :
    dsdlib_tag_id3 io tp is 0 = (is, []) ∧
    (dsdlib_tag_id3 io tp is 0).1.calls = is.calls ∧
    (dsdlib_tag_id3 io tp is 0).1.state = is.state ∧
    (dsdlib_tag_id3 io tp is 0).2 = [] := by
  rw [tag_zero]
  exact ⟨rfl, rfl, rfl, rfl⟩

/-- C17: for a tag offset at or beyond the size of the stream, on a stream,
seekable or not, that a successful skip leaves at the requested offset,
`dsdlib_tag_id3` does not invoke the handler and adds no `decoder_read_full`
call: the stream is left as `dsdlib_skip_to` leaves it. -/
theorem tag_out_of_range {σ τ φ : Type} (io : StreamAdapter σ) (tp : TagScanner τ φ)
    (is : InputStream σ) (tagoffset : Nat)
    (hland : (dsdlib_skip_to io is tagoffset).1 = true →
      io.getOffset (dsdlib_skip_to io is tagoffset).2.state = tagoffset)
    (hsize : io.getSize (dsdlib_skip_to io is tagoffset).2.state ≤ tagoffset) :
    (dsdlib_tag_id3 io tp is tagoffset).2 = [] ∧
    (∀ n, StreamCall.readFull n ∈ (dsdlib_tag_id3 io tp is tagoffset).1.calls →
      StreamCall.readFull n ∈ is.calls) ∧
    (tagoffset ≠ 0 →
      (dsdlib_tag_id3 io tp is tagoffset).1 = (dsdlib_skip_to io is tagoffset).2) := by
  by_cases h0 : tagoffset = 0
  · subst h0; rw [tag_zero]
    exact ⟨rfl, fun n hn => hn, fun h => absurd rfl h⟩
  · have he : dsdlib_tag_id3 io tp is tagoffset = ((dsdlib_skip_to io is tagoffset).2, []) := by
      cases hs : (dsdlib_skip_to io is tagoffset).1 with
      | false => exact tag_skip_failed io tp is tagoffset h0 hs
      | true =>
        have ho := hland hs
        exact tag_no_read io tp is tagoffset h0 (Or.inl (by omega))
    rw [he]
    exact ⟨rfl, fun n hn => skip_to_adds_no_read io is tagoffset n hn, fun _ => rfl⟩

theorem tag_out_of_range_witness :
    ((dsdlib_skip_to fileAdapter (fileStream [1, 2, 3, 4, 5, 6] 0) 6).1 = true ∧
     fileAdapter.getOffset (dsdlib_skip_to fileAdapter (fileStream [1, 2, 3, 4, 5, 6] 0) 6).2.state
       = 6 ∧
     fileAdapter.getSize (dsdlib_skip_to fileAdapter (fileStream [1, 2, 3, 4, 5, 6] 0) 6).2.state
       ≤ 6 ∧
     (dsdlib_tag_id3 fileAdapter byteScanner (fileStream [1, 2, 3, 4, 5, 6] 0) 6).2 = []) ∧
    ((dsdlib_skip_to chunkAdapter (chunkStream [[1, 2], [3]]) 3).1 = true ∧
     chunkAdapter.getSize (dsdlib_skip_to chunkAdapter (chunkStream [[1, 2], [3]]) 3).2.state
       ≤ 3 ∧
     (dsdlib_tag_id3 chunkAdapter byteScanner (chunkStream [[1, 2], [3]]) 3).2 = [] ∧
     (dsdlib_tag_id3 chunkAdapter byteScanner (chunkStream [[1, 2], [3]]) 3).1.calls
       = [StreamCall.skip 3]) :=
  ⟨⟨by decide, by decide, by decide,
    (tag_out_of_range fileAdapter byteScanner (fileStream [1, 2, 3, 4, 5, 6] 0) 6
      (fun _ => by decide) (by decide)).1⟩,
   ⟨by decide, by decide,
    (tag_out_of_range chunkAdapter byteScanner (chunkStream [[1, 2], [3]]) 3
      (fun _ => by decide) (by decide)).1,
    congrArg InputStream.calls
      ((tag_out_of_range chunkAdapter byteScanner (chunkStream [[1, 2], [3]]) 3
        (fun _ => by decide) (by decide)).2.2 (by decide))⟩⟩

theorem file_skip_to (content : List Byte) (pos offset : Nat) (h : offset ≤ content.length) :
    dsdlib_skip_to fileAdapter (fileStream content pos) offset
      = (true, { state := { content := content, pos := offset },
                 calls := [StreamCall.seek offset] }) := by
  simp [dsdlib_skip_to, fileAdapter, fileStream, InputStream.Seek, h]

theorem tag_read_ceiling_witness :
    ((dsdlib_tag_id3 fileAdapter byteScanner (fileStream [1, 2, 3, 4, 5, 6] 0) 2).1.calls
        = [StreamCall.seek 2, StreamCall.readFull 4] ∧
     (dsdlib_tag_id3 fileAdapter byteScanner (fileStream [1, 2, 3, 4, 5, 6] 0) 2).2
        = [3, 4, 5, 6]) ∧
    (4096 < (List.replicate 5000 (0 : Byte)).length - 100 ∧
     (dsdlib_tag_id3 fileAdapter byteScanner (fileStream (List.replicate 5000 0) 0) 100).2
        = [] ∧
     ∀ n, StreamCall.readFull n ∈
        (dsdlib_tag_id3 fileAdapter byteScanner
          (fileStream (List.replicate 5000 0) 0) 100).1.calls →
        StreamCall.readFull n ∈ (fileStream (List.replicate 5000 0) 0).calls) :=
  have hlen : (100 : Nat) ≤ (List.replicate 5000 (0 : Byte)).length := by
    rw [List.length_replicate]; decide
  have hbig : 4096 < (List.replicate 5000 (0 : Byte)).length - 100 := by
    rw [List.length_replicate]; decide
  have hland : (dsdlib_skip_to fileAdapter (fileStream (List.replicate 5000 0) 0) 100).1 = true →
      fileAdapter.getOffset
        (dsdlib_skip_to fileAdapter (fileStream (List.replicate 5000 0) 0) 100).2.state = 100 := by
    intro _; rw [file_skip_to _ _ _ hlen]; rfl
  have hgt : 4096 < fileAdapter.getSize
      (dsdlib_skip_to fileAdapter (fileStream (List.replicate 5000 0) 0) 100).2.state - 100 := by
    rw [file_skip_to _ _ _ hlen]
    simp only [fileAdapter, List.length_replicate]
    decide
  ⟨⟨by decide, by decide⟩, hbig,
   ((tag_read_ceiling fileAdapter byteScanner (fileStream (List.replicate 5000 0) 0) 100).2.2
      hland hgt).2,
   ((tag_read_ceiling fileAdapter byteScanner (fileStream (List.replicate 5000 0) 0) 100).2.2
      hland hgt).1⟩

/-! ## Construction, and the bound on the loop of `decoder_buffer_need` -/

/-- C18, as the code has it: `decoder_buffer_new` guards `size = 0` by
`assert(size > 0)` alone and has no failure result.  With assertions on, a
`size` of 0 aborts there and no instance is produced; with assertions
compiled out it produces a buffer of size 0.  For every `size > 0`, in either
build, it produces a buffer with that `size` and `length = consumed = 0`, so
that no byte is available and the view read is empty. -/
theorem new_buffer_empty (ndebug : Bool) (size : Nat) :
    decoder_buffer_new_asserting false 0 = none ∧
    decoder_buffer_new_asserting true 0
      = some { size := 0, length := 0, consumed := 0, data := [] } ∧
    (0 < size →
      decoder_buffer_new_asserting ndebug size = some (decoder_buffer_new size) ∧
      (decoder_buffer_new size).size = size ∧
      (decoder_buffer_new size).length = 0 ∧
      (decoder_buffer_new size).consumed = 0 ∧
      (decoder_buffer_new size).data.length = size ∧
      decoder_buffer_available (decoder_buffer_new size) = 0 ∧
      decoder_buffer_read (decoder_buffer_new size) = { data := some 0, size := 0 } ∧
      (decoder_buffer_new size).unread = []) := by
  refine ⟨rfl, rfl, fun h => ⟨?_, rfl, rfl, rfl, ?_, rfl, rfl, ?_⟩⟩
  · simp only [decoder_buffer_new_asserting, gt_iff_lt, h, not_true_eq_false, and_false,
      if_false]
  · simp [decoder_buffer_new]
  · simp [unread_eq, decoder_buffer_new]

theorem new_buffer_empty_witness :
    0 < 16 ∧
    decoder_buffer_new_asserting false 16 = some (decoder_buffer_new 16) ∧
    (decoder_buffer_new 16).size = 16 ∧
    decoder_buffer_available (decoder_buffer_new 16) = 0 ∧
    (decoder_buffer_new 16).unread = [] :=
  ⟨by decide, ((new_buffer_empty false 16).2.2 (by decide)).1,
   ((new_buffer_empty false 16).2.2 (by decide)).2.1,
   ((new_buffer_empty false 16).2.2 (by decide)).2.2.2.2.2.1,
   ((new_buffer_empty false 16).2.2 (by decide)).2.2.2.2.2.2.2⟩

/-- C18 as stated fails for `size = 0` where assertions are compiled out
(`NDEBUG`): nothing then stands between the call and the constructor, and an
instance is produced, a buffer of size 0 within its bounds. -/
theorem new_zero_yields_buffer :
    decoder_buffer_new_asserting true 0 ≠ none ∧
    decoder_buffer_new_asserting true 0 = some (decoder_buffer_new 0) ∧
    (decoder_buffer_new 0).size = 0 ∧
    (decoder_buffer_new 0).Valid := by
  decide

theorem need_within_budget {σ : Type} (io : StreamAdapter σ) (fills : Nat)
    (b : DecoderBuffer) (is : InputStream σ) (min_size : Nat)
    (h : b.size - decoder_buffer_available b < fills) :
    needWithin io fills b is min_size = some (decoder_buffer_need io b is min_size) := by
  induction fills generalizing b is with
  | zero => omega
  | succ k ih =>
    by_cases ha : min_size ≤ decoder_buffer_available b
    · rw [need_enough io b is min_size ha]
      simp only [needWithin, ge_iff_le, if_pos ha]
    · cases hs : (decoder_buffer_fill io b is).1 with
      | true =>
        have hav := fill_success_available io b is hs
        have hsz := fill_size io b is
        obtain ⟨hlt, hr⟩ := (fill_success_iff io b is).1 hs
        have hpos := List.length_pos.2 hr
        rw [need_fill_success io b is min_size (by omega) hs]
        simp only [needWithin, ge_iff_le, if_neg ha, hs, if_true]
        exact ih _ _ (by omega)
      | false =>
        rw [need_fill_failure io b is min_size (by omega) hs]
        simp only [needWithin, ge_iff_le, if_neg ha, hs, Bool.false_eq_true, if_false,
          fill_failure_buffer io b is hs]

/-- C19 (termination of `decoder_buffer_need`): the loop returns, and it
returns within `size - available + 1` calls of `decoder_buffer_fill`,
`available` being measured at entry: allowed that many calls the loop gives
the result of `decoder_buffer_need`.  The reasons: a fill that succeeds
raises the number of available bytes, and a fill fails once `size` bytes are
available.  This holds for every buffer and stream, so for buffers within
their bounds and reads of at most `maxLen` bytes. -/
theorem need_terminates_within {σ : Type} (io : StreamAdapter σ) (b : DecoderBuffer)
    (is : InputStream σ) (min_size : Nat) :
    needWithin io (b.size - decoder_buffer_available b + 1) b is min_size
      = some (decoder_buffer_need io b is min_size) ∧
    ((decoder_buffer_fill io b is).1 = true →
      decoder_buffer_available b
        < decoder_buffer_available (decoder_buffer_fill io b is).2.1) ∧
    (b.size ≤ decoder_buffer_available b → (decoder_buffer_fill io b is).1 = false) := by
  refine ⟨need_within_budget io _ b is min_size (by omega), fun hs => ?_, fun hfull => ?_⟩
  · have hav := fill_success_available io b is hs
    obtain ⟨_, hr⟩ := (fill_success_iff io b is).1 hs
    have hpos := List.length_pos.2 hr
    omega
  · rw [fill_full io b is hfull]

theorem need_beyond_size {σ : Type} (io : StreamAdapter σ) (hio : ReadBounded io)
    (b : DecoderBuffer) (is : InputStream σ) (min_size : Nat) (hv : b.Valid)
    (hm : b.size < min_size) :
    (decoder_buffer_need io b is min_size).1 = ConstBuffer.null := by
  induction b, is, min_size using decoder_buffer_need.induct io with
  | case1 b is min_size h =>
    obtain ⟨h1, h2, _⟩ := hv
    unfold decoder_buffer_available at h
    omega
  | case2 b is min_size h hs ih =>
    rw [need_fill_success io b is min_size (by omega) hs]
    exact ih (fill_valid io b is hv (hio _ _)) (by rw [fill_size]; exact hm)
  | case3 b is min_size h hs =>
    rw [need_fill_failure io b is min_size (by omega) (by simpa using hs)]

theorem need_productive {σ : Type} (io : StreamAdapter σ) (hp : Productive io)
    (b : DecoderBuffer) (is : InputStream σ) (min_size : Nat) (hm : min_size ≤ b.size) :
    (decoder_buffer_need io b is min_size).1.IsNull = false ∧
      min_size ≤ (decoder_buffer_need io b is min_size).1.size := by
  induction b, is, min_size using decoder_buffer_need.induct io with
  | case1 b is min_size h =>
    rw [need_enough io b is min_size h]
    exact ⟨rfl, h⟩
  | case2 b is min_size h hs ih =>
    rw [need_fill_success io b is min_size (by omega) hs]
    exact ih (by rw [fill_size]; exact hm)
  | case3 b is min_size h hs =>
    exfalso
    apply hs
    rw [fill_success_iff]
    exact ⟨by omega, hp _ _ (by omega)⟩

/-- C20 (capacity limit of `decoder_buffer_need`), for a buffer within its
bounds over a stream whose reads return at most `maxLen` bytes: with
`min_size` above `size` the call returns the null buffer, whatever the source
holds; with `min_size` at most `size`, over a stream every read of which
returns at least one byte, it returns a view of at least `min_size` bytes. -/
theorem need_capacity_limit {σ : Type} (io : StreamAdapter σ) (b : DecoderBuffer)
    (is : InputStream σ) (min_size : Nat) (hv : b.Valid) (hio : ReadBounded io) :
    (b.size < min_size → (decoder_buffer_need io b is min_size).1 = ConstBuffer.null) ∧
    (min_size ≤ b.size → Productive io →
      (decoder_buffer_need io b is min_size).1.IsNull = false ∧
      min_size ≤ (decoder_buffer_need io b is min_size).1.size ∧
      (decoder_buffer_need io b is min_size).1
        = decoder_buffer_read (decoder_buffer_need io b is min_size).2.1) := by
  refine ⟨need_beyond_size io hio b is min_size hv, fun hm hp => ?_⟩
  obtain ⟨h1, h2⟩ := need_productive io hp b is min_size hm
  refine ⟨h1, h2, ?_⟩
  rcases need_outcome io b is min_size with ⟨_, _, h3⟩ | ⟨h3, _⟩
  · exact h3
  · rw [h3] at h1; exact absurd h1 (by decide)

theorem endless_read_bounded : ReadBounded endlessAdapter := by
  intro s maxLen
  simp only [endlessAdapter]
  split_ifs with h
  · simp
  · simp; omega

theorem endless_productive : Productive endlessAdapter := by
  intro s maxLen h
  simp only [endlessAdapter]
  rw [if_neg (by omega)]
  simp

theorem need_capacity_limit_witness :
    (decoder_buffer_new 4).Valid ∧ ReadBounded endlessAdapter ∧ Productive endlessAdapter ∧
    (decoder_buffer_need endlessAdapter (decoder_buffer_new 4)
        { state := 0, calls := [] } 5).1 = ConstBuffer.null ∧
    (decoder_buffer_need endlessAdapter (decoder_buffer_new 4)
        { state := 0, calls := [] } 3).1.IsNull = false ∧
    3 ≤ (decoder_buffer_need endlessAdapter (decoder_buffer_new 4)
        { state := 0, calls := [] } 3).1.size :=
  ⟨by decide, endless_read_bounded, endless_productive,
   (need_capacity_limit endlessAdapter (decoder_buffer_new 4) { state := 0, calls := [] } 5
      (by decide) endless_read_bounded).1 (by decide),
   ((need_capacity_limit endlessAdapter (decoder_buffer_new 4) { state := 0, calls := [] } 3
      (by decide) endless_read_bounded).2 (by decide) endless_productive).1,
   ((need_capacity_limit endlessAdapter (decoder_buffer_new 4) { state := 0, calls := [] } 3
      (by decide) endless_read_bounded).2 (by decide) endless_productive).2.1⟩

end Mpd
